import Mathlib

/-!
Shallow embedding of the reconciliation core of the repository:
* `src/server/src/gstr3b.js` — `computeTaxPayment`, the credit-utilization waterfall;
* `src/server/src/fileParser.js` — `reconcileData` and its helpers
  (`buildInvoiceMap`, `normalizeInvoiceNo`, `findFuzzyMatch`, `compareInvoices`,
  `normalizeDate`);
* `src/server/src/gstr2Reconciliation.js` — `reconcilePurchaseWith2A2B` and its helpers
  (`normalizeInvNo`, `comparePurchaseInvoice`, `findFuzzyMatch2A`).

JavaScript numbers are modelled as exact rationals (`ℚ`); `Math.round(x*100)/100`
becomes `round2`.  JavaScript strings that may be `undefined` are modelled as `String`
with `""` standing for an absent value, matching the truthiness tests in the source.
Report-only payload fields (labels, human-readable messages, suggestions, the observed
values inside a discrepancy object) and the reporting-only aggregations of
`reconcileData` (monthly/customer breakdowns, `validationIssues`,
`totalDiscrepancyAmount`) are omitted: no claim refers to them and they feed back into
no computation.  Summary counters of the source are maintained in lockstep with the
corresponding output lists, so they are exposed here as the lengths of those lists.
-/

namespace CA

/-- `Math.round(q * 100) / 100` from the source, over exact rationals.
`Math.round` rounds half toward positive infinity, i.e. `⌊x + 1/2⌋`. -/
def round2 (q : ℚ) : ℚ := (⌊q * 100 + 1/2⌋ : ℤ) / 100

/-- Model of the JavaScript `String.prototype.toUpperCase` (ASCII range, which is all
the source ever feeds it). -/
def jsToUpper (s : String) : String := String.mk (s.toList.map Char.toUpper)

/-- Model of the JavaScript `String.prototype.trim`: strip leading and trailing
whitespace. -/
def jsTrim (s : String) : String :=
  String.mk (((s.toList.dropWhile Char.isWhitespace).reverse.dropWhile
    Char.isWhitespace).reverse)

/-! ## gstr3b.js — Table 6: payment of tax (`computeTaxPayment`) -/

/-- Four tax heads, as in the `liability` / `itc` objects of `computeTaxPayment`. -/
structure Heads where
  igst : ℚ
  cgst : ℚ
  sgst : ℚ
  cess : ℚ
deriving Repr, DecidableEq

/-- Four tax heads plus their reported total. -/
structure HeadsT where
  igst : ℚ
  cgst : ℚ
  sgst : ℚ
  cess : ℚ
  total : ℚ
deriving Repr, DecidableEq

/-- The `utilization` breakdown object returned by `computeTaxPayment`.  The source
object has exactly these eight fields; in particular there is no CGST→SGST and no
SGST→CGST component. -/
structure Utilization where
  igstToIgst : ℚ
  igstToCgst : ℚ
  igstToSgst : ℚ
  cgstToCgst : ℚ
  cgstToIgst : ℚ
  sgstToSgst : ℚ
  sgstToIgst : ℚ
  cessTocess : ℚ
deriving Repr, DecidableEq

/- The sequential mutable updates of `computeTaxPayment` are unrolled into one
definition per assignment; `remainIGST1` is the value of the source variable
`remainIGST` after step 1, and so on.  Each definition is a direct transcription of
the corresponding `Math.min` / subtraction in the source. -/

/-- Step 1: `igstAgainstIgst = Math.min(remainIGST, payIGST)` with
`remainIGST = itc.igst`, `payIGST = liability.igst`. -/
def igstAgainstIgst (liab itc : Heads) : ℚ := min itc.igst liab.igst

/-- `remainIGST` after step 1. -/
def remainIGST1 (liab itc : Heads) : ℚ := itc.igst - igstAgainstIgst liab itc

/-- `payIGST` after step 1. -/
def payIGST1 (liab itc : Heads) : ℚ := liab.igst - igstAgainstIgst liab itc

/-- Step 2: remaining IGST ITC against CGST liability. -/
def igstAgainstCgst (liab itc : Heads) : ℚ := min (remainIGST1 liab itc) liab.cgst

/-- `remainIGST` after step 2. -/
def remainIGST2 (liab itc : Heads) : ℚ := remainIGST1 liab itc - igstAgainstCgst liab itc

/-- `payCGST` after step 2. -/
def payCGST1 (liab itc : Heads) : ℚ := liab.cgst - igstAgainstCgst liab itc

/-- Step 3: remaining IGST ITC against SGST liability. -/
def igstAgainstSgst (liab itc : Heads) : ℚ := min (remainIGST2 liab itc) liab.sgst

/-- `remainIGST` after step 3 (final). -/
def remainIGST3 (liab itc : Heads) : ℚ := remainIGST2 liab itc - igstAgainstSgst liab itc

/-- `paySGST` after step 3. -/
def paySGST1 (liab itc : Heads) : ℚ := liab.sgst - igstAgainstSgst liab itc

/-- Step 4: CGST ITC against CGST liability. -/
def cgstAgainstCgst (liab itc : Heads) : ℚ := min itc.cgst (payCGST1 liab itc)

/-- `remainCGST` after step 4. -/
def remainCGST1 (liab itc : Heads) : ℚ := itc.cgst - cgstAgainstCgst liab itc

/-- `payCGST` after step 4 (final). -/
def payCGST2 (liab itc : Heads) : ℚ := payCGST1 liab itc - cgstAgainstCgst liab itc

/-- Step 5: remaining CGST ITC against IGST liability. -/
def cgstAgainstIgst (liab itc : Heads) : ℚ := min (remainCGST1 liab itc) (payIGST1 liab itc)

/-- `remainCGST` after step 5 (final). -/
def remainCGST2 (liab itc : Heads) : ℚ := remainCGST1 liab itc - cgstAgainstIgst liab itc

/-- `payIGST` after step 5. -/
def payIGST2 (liab itc : Heads) : ℚ := payIGST1 liab itc - cgstAgainstIgst liab itc

/-- Step 6: SGST ITC against SGST liability. -/
def sgstAgainstSgst (liab itc : Heads) : ℚ := min itc.sgst (paySGST1 liab itc)

/-- `remainSGST` after step 6. -/
def remainSGST1 (liab itc : Heads) : ℚ := itc.sgst - sgstAgainstSgst liab itc

/-- `paySGST` after step 6 (final). -/
def paySGST2 (liab itc : Heads) : ℚ := paySGST1 liab itc - sgstAgainstSgst liab itc

/-- Step 7: remaining SGST ITC against IGST liability. -/
def sgstAgainstIgst (liab itc : Heads) : ℚ := min (remainSGST1 liab itc) (payIGST2 liab itc)

/-- `remainSGST` after step 7 (final). -/
def remainSGST2 (liab itc : Heads) : ℚ := remainSGST1 liab itc - sgstAgainstIgst liab itc

/-- `payIGST` after step 7 (final). -/
def payIGST3 (liab itc : Heads) : ℚ := payIGST2 liab itc - sgstAgainstIgst liab itc

/-- Step 8: CESS ITC against CESS liability (cess never cross-allocates). -/
def cessAgainstCess (liab itc : Heads) : ℚ := min itc.cess liab.cess

/-- `remainCESS` after step 8 (final). -/
def remainCESS1 (liab itc : Heads) : ℚ := itc.cess - cessAgainstCess liab itc

/-- `payCESS` after step 8 (final). -/
def payCESS1 (liab itc : Heads) : ℚ := liab.cess - cessAgainstCess liab itc

/-- Result record of `computeTaxPayment` (`interestPayable` and the late-fee fields,
constant `0` in the source, are omitted). -/
structure TaxPayment where
  liability : Heads
  itcAvailable : Heads
  utilization : Utilization
  itcUtilized : HeadsT
  cashPayable : HeadsT
  itcBalance : HeadsT
  totalLiability : ℚ
  netPayable : ℚ
deriving Repr, DecidableEq

/-- `computeTaxPayment(table3_1, table4)` from `gstr3b.js`, as a function of the
two four-head inputs `table3_1.totalLiability` and `table4.netITC`.  The unused
`previousBalance` parameter is omitted. -/
def computeTaxPayment (liab itc : Heads) : TaxPayment :=
  let cashIgst := round2 (max 0 (payIGST3 liab itc))
  let cashCgst := round2 (max 0 (payCGST2 liab itc))
  let cashSgst := round2 (max 0 (paySGST2 liab itc))
  let cashCess := round2 (max 0 (payCESS1 liab itc))
  let utilIgst := itc.igst - remainIGST3 liab itc
  let utilCgst := itc.cgst - remainCGST2 liab itc
  let utilSgst := itc.sgst - remainSGST2 liab itc
  let utilCess := itc.cess - remainCESS1 liab itc
  let balIgst := round2 (remainIGST3 liab itc)
  let balCgst := round2 (remainCGST2 liab itc)
  let balSgst := round2 (remainSGST2 liab itc)
  let balCess := round2 (remainCESS1 liab itc)
  { liability := liab
    itcAvailable := itc
    utilization :=
      { igstToIgst := igstAgainstIgst liab itc
        igstToCgst := igstAgainstCgst liab itc
        igstToSgst := igstAgainstSgst liab itc
        cgstToCgst := cgstAgainstCgst liab itc
        cgstToIgst := cgstAgainstIgst liab itc
        sgstToSgst := sgstAgainstSgst liab itc
        sgstToIgst := sgstAgainstIgst liab itc
        cessTocess := cessAgainstCess liab itc }
    itcUtilized :=
      { igst := utilIgst, cgst := utilCgst, sgst := utilSgst, cess := utilCess
        total := utilIgst + utilCgst + utilSgst + utilCess }
    cashPayable :=
      { igst := cashIgst, cgst := cashCgst, sgst := cashSgst, cess := cashCess
        total := cashIgst + cashCgst + cashSgst + cashCess }
    itcBalance :=
      { igst := balIgst, cgst := balCgst, sgst := balSgst, cess := balCess
        total := balIgst + balCgst + balSgst + balCess }
    totalLiability := liab.igst + liab.cgst + liab.sgst + liab.cess
    netPayable := cashIgst + cashCgst + cashSgst + cashCess }

/-! ### Waterfall lemmas -/

/-- An amount expressible in whole hundredths (whole paise): the granularity at
which the two-decimal reporting rounding of the source is the identity. -/
def Cent (q : ℚ) : Prop := ∃ n : ℤ, q = n / 100

/-- All four heads are whole-hundredths amounts. -/
def CentHeads (h : Heads) : Prop := Cent h.igst ∧ Cent h.cgst ∧ Cent h.sgst ∧ Cent h.cess

theorem cent_sub {a b : ℚ} (ha : Cent a) (hb : Cent b) : Cent (a - b) := by
  obtain ⟨m, rfl⟩ := ha
  obtain ⟨n, rfl⟩ := hb
  exact ⟨m - n, by push_cast; ring⟩

theorem cent_min {a b : ℚ} (ha : Cent a) (hb : Cent b) : Cent (min a b) := by
  obtain ⟨m, rfl⟩ := ha
  obtain ⟨n, rfl⟩ := hb
  refine ⟨min m n, ?_⟩
  rw [min_div_div_right (by norm_num : (0:ℚ) ≤ 100)]
  push_cast
  rfl

theorem round2_cent {q : ℚ} (h : Cent q) : round2 q = q := by
  obtain ⟨n, rfl⟩ := h
  unfold round2
  rw [div_mul_cancel₀ _ (by norm_num : (100:ℚ) ≠ 0), add_comm, Int.floor_add_int]
  norm_num

theorem round2_nonneg {q : ℚ} (h : 0 ≤ q) : 0 ≤ round2 q := by
  unfold round2
  have : (0:ℤ) ≤ ⌊q * 100 + 1/2⌋ := by
    rw [Int.le_floor]
    push_cast
    nlinarith
  positivity

/-- After its first allocation step, a remaining-liability variable is never
negative: subtracting `min credit pay` from `pay` leaves at least `0`. -/
theorem payIGST1_nonneg (liab itc : Heads) : 0 ≤ payIGST1 liab itc :=
  sub_nonneg.2 (min_le_right _ _)

theorem payCGST1_nonneg (liab itc : Heads) : 0 ≤ payCGST1 liab itc :=
  sub_nonneg.2 (min_le_right _ _)

theorem paySGST1_nonneg (liab itc : Heads) : 0 ≤ paySGST1 liab itc :=
  sub_nonneg.2 (min_le_right _ _)

theorem payCESS1_nonneg (liab itc : Heads) : 0 ≤ payCESS1 liab itc :=
  sub_nonneg.2 (min_le_right _ _)

theorem payCGST2_nonneg (liab itc : Heads) : 0 ≤ payCGST2 liab itc :=
  sub_nonneg.2 (min_le_right _ _)

theorem payIGST2_nonneg (liab itc : Heads) : 0 ≤ payIGST2 liab itc :=
  sub_nonneg.2 (min_le_right _ _)

theorem paySGST2_nonneg (liab itc : Heads) : 0 ≤ paySGST2 liab itc :=
  sub_nonneg.2 (min_le_right _ _)

theorem payIGST3_nonneg (liab itc : Heads) : 0 ≤ payIGST3 liab itc :=
  sub_nonneg.2 (min_le_right _ _)

/-- A remaining-credit variable is never negative either: subtracting
`min credit x` from `credit` leaves at least `0`. -/
theorem remainIGST1_nonneg (liab itc : Heads) : 0 ≤ remainIGST1 liab itc :=
  sub_nonneg.2 (min_le_left _ _)

theorem remainIGST2_nonneg (liab itc : Heads) : 0 ≤ remainIGST2 liab itc :=
  sub_nonneg.2 (min_le_left _ _)

theorem remainIGST3_nonneg (liab itc : Heads) : 0 ≤ remainIGST3 liab itc :=
  sub_nonneg.2 (min_le_left _ _)

theorem remainCGST1_nonneg (liab itc : Heads) : 0 ≤ remainCGST1 liab itc :=
  sub_nonneg.2 (min_le_left _ _)

theorem remainCGST2_nonneg (liab itc : Heads) : 0 ≤ remainCGST2 liab itc :=
  sub_nonneg.2 (min_le_left _ _)

theorem remainSGST1_nonneg (liab itc : Heads) : 0 ≤ remainSGST1 liab itc :=
  sub_nonneg.2 (min_le_left _ _)

theorem remainSGST2_nonneg (liab itc : Heads) : 0 ≤ remainSGST2 liab itc :=
  sub_nonneg.2 (min_le_left _ _)

theorem remainCESS1_nonneg (liab itc : Heads) : 0 ≤ remainCESS1 liab itc :=
  sub_nonneg.2 (min_le_left _ _)

/-- Whole-hundredths granularity propagates through every stage of the
waterfall. -/
theorem cent_stages {liab itc : Heads} (hl : CentHeads liab) (hi : CentHeads itc) :
    Cent (payIGST3 liab itc) ∧ Cent (payCGST2 liab itc) ∧ Cent (paySGST2 liab itc) ∧
    Cent (payCESS1 liab itc) ∧ Cent (remainIGST3 liab itc) ∧
    Cent (remainCGST2 liab itc) ∧ Cent (remainSGST2 liab itc) ∧
    Cent (remainCESS1 liab itc) := by
  obtain ⟨hl1, hl2, hl3, hl4⟩ := hl
  obtain ⟨hi1, hi2, hi3, hi4⟩ := hi
  unfold payIGST3 payCGST2 paySGST2 payCESS1 remainIGST3 remainCGST2 remainSGST2
    remainCESS1 payIGST2 sgstAgainstIgst remainSGST1 sgstAgainstSgst paySGST1
    cgstAgainstIgst remainCGST1 cgstAgainstCgst payCGST1 payIGST1 igstAgainstSgst
    remainIGST2 igstAgainstCgst remainIGST1 igstAgainstIgst cessAgainstCess
  refine ⟨?_, ?_, ?_, ?_, ?_, ?_, ?_, ?_⟩ <;>
    (repeat first | assumption | apply cent_sub | apply cent_min)

/-! ### Claim C3 — waterfall conservation -/

/-- C3, counterexample: the conservation equation `liability = cash payable +
credit utilized against the head` fails as stated for arbitrary inputs, because
cash payable is rounded to two decimals at reporting: with an IGST liability of
`0.003` and no credit at all, the reported cash payable is `0`, not `0.003`. -/
theorem c3_counterexample :
    (⟨3/1000, 0, 0, 0⟩ : Heads).igst ≠
      (computeTaxPayment ⟨3/1000, 0, 0, 0⟩ ⟨0, 0, 0, 0⟩).cashPayable.igst +
        ((computeTaxPayment ⟨3/1000, 0, 0, 0⟩ ⟨0, 0, 0, 0⟩).utilization.igstToIgst +
         (computeTaxPayment ⟨3/1000, 0, 0, 0⟩ ⟨0, 0, 0, 0⟩).utilization.cgstToIgst +
         (computeTaxPayment ⟨3/1000, 0, 0, 0⟩ ⟨0, 0, 0, 0⟩).utilization.sgstToIgst) := by
  norm_num [computeTaxPayment, round2, payIGST3, payIGST2, payIGST1, igstAgainstIgst,
    sgstAgainstIgst, cgstAgainstIgst, remainSGST1, sgstAgainstSgst, paySGST1,
    remainCGST1, cgstAgainstCgst, payCGST1, igstAgainstCgst, remainIGST1, remainIGST2,
    igstAgainstSgst, min_def, max_def]

/-- C3 (amended): for all liability and net-credit inputs expressible in whole
hundredths — the granularity at which the source's two-decimal reporting rounding
is the identity — every head satisfies `liability = cash payable + credit utilized
against the head` and `available credit = carried-forward balance + credit utilized
from the head`, and both equations also hold for the sums over all four heads. -/
theorem c3_amended (liab itc : Heads) (hl : CentHeads liab) (hi : CentHeads itc) :
    liab.igst = (computeTaxPayment liab itc).cashPayable.igst +
        ((computeTaxPayment liab itc).utilization.igstToIgst +
         (computeTaxPayment liab itc).utilization.cgstToIgst +
         (computeTaxPayment liab itc).utilization.sgstToIgst) ∧
    liab.cgst = (computeTaxPayment liab itc).cashPayable.cgst +
        ((computeTaxPayment liab itc).utilization.igstToCgst +
         (computeTaxPayment liab itc).utilization.cgstToCgst) ∧
    liab.sgst = (computeTaxPayment liab itc).cashPayable.sgst +
        ((computeTaxPayment liab itc).utilization.igstToSgst +
         (computeTaxPayment liab itc).utilization.sgstToSgst) ∧
    liab.cess = (computeTaxPayment liab itc).cashPayable.cess +
        (computeTaxPayment liab itc).utilization.cessTocess ∧
    itc.igst = (computeTaxPayment liab itc).itcBalance.igst +
        (computeTaxPayment liab itc).itcUtilized.igst ∧
    itc.cgst = (computeTaxPayment liab itc).itcBalance.cgst +
        (computeTaxPayment liab itc).itcUtilized.cgst ∧
    itc.sgst = (computeTaxPayment liab itc).itcBalance.sgst +
        (computeTaxPayment liab itc).itcUtilized.sgst ∧
    itc.cess = (computeTaxPayment liab itc).itcBalance.cess +
        (computeTaxPayment liab itc).itcUtilized.cess ∧
    (computeTaxPayment liab itc).totalLiability =
        (computeTaxPayment liab itc).cashPayable.total +
        (computeTaxPayment liab itc).itcUtilized.total ∧
    itc.igst + itc.cgst + itc.sgst + itc.cess =
        (computeTaxPayment liab itc).itcBalance.total +
        (computeTaxPayment liab itc).itcUtilized.total := by
  obtain ⟨c1, c2, c3, c4, c5, c6, c7, c8⟩ := cent_stages hl hi
  have r1 : round2 (max 0 (payIGST3 liab itc)) = payIGST3 liab itc := by
    rw [max_eq_right (payIGST3_nonneg liab itc), round2_cent c1]
  have r2 : round2 (max 0 (payCGST2 liab itc)) = payCGST2 liab itc := by
    rw [max_eq_right (payCGST2_nonneg liab itc), round2_cent c2]
  have r3 : round2 (max 0 (paySGST2 liab itc)) = paySGST2 liab itc := by
    rw [max_eq_right (paySGST2_nonneg liab itc), round2_cent c3]
  have r4 : round2 (max 0 (payCESS1 liab itc)) = payCESS1 liab itc := by
    rw [max_eq_right (payCESS1_nonneg liab itc), round2_cent c4]
  have r5 : round2 (remainIGST3 liab itc) = remainIGST3 liab itc := round2_cent c5
  have r6 : round2 (remainCGST2 liab itc) = remainCGST2 liab itc := round2_cent c6
  have r7 : round2 (remainSGST2 liab itc) = remainSGST2 liab itc := round2_cent c7
  have r8 : round2 (remainCESS1 liab itc) = remainCESS1 liab itc := round2_cent c8
  simp only [computeTaxPayment, r1, r2, r3, r4, r5, r6, r7, r8]
  unfold payIGST3 payCGST2 paySGST2 payCESS1 remainIGST3 remainCGST2 remainSGST2
    remainCESS1 payIGST2 remainSGST1 paySGST1 remainCGST1 payCGST1 payIGST1
    remainIGST2 remainIGST1
  refine ⟨?_, ?_, ?_, ?_, ?_, ?_, ?_, ?_, ?_, ?_⟩ <;> ring

/-- C3, witness: the amended conservation law evaluated at a concrete whole-cent
input. -/
theorem c3_amended_witness :
    (⟨100, 200, 50, 10⟩ : Heads).igst =
      (computeTaxPayment ⟨100, 200, 50, 10⟩ ⟨120, 30, 80, 5⟩).cashPayable.igst +
        ((computeTaxPayment ⟨100, 200, 50, 10⟩ ⟨120, 30, 80, 5⟩).utilization.igstToIgst +
         (computeTaxPayment ⟨100, 200, 50, 10⟩ ⟨120, 30, 80, 5⟩).utilization.cgstToIgst +
         (computeTaxPayment ⟨100, 200, 50, 10⟩ ⟨120, 30, 80, 5⟩).utilization.sgstToIgst) :=
  (c3_amended ⟨100, 200, 50, 10⟩ ⟨120, 30, 80, 5⟩
    ⟨⟨10000, by norm_num⟩, ⟨20000, by norm_num⟩, ⟨5000, by norm_num⟩, ⟨1000, by norm_num⟩⟩
    ⟨⟨12000, by norm_num⟩, ⟨3000, by norm_num⟩, ⟨8000, by norm_num⟩,
      ⟨500, by norm_num⟩⟩).1

/-- If any IGST credit is left after step 1 (`remainIGST > 0`), then step 1
consumed the whole initial IGST liability. -/
theorem igst_fully_used (liab itc : Heads) (h : 0 < remainIGST1 liab itc) :
    igstAgainstIgst liab itc = liab.igst := by
  have hlt : igstAgainstIgst liab itc < itc.igst := by
    unfold remainIGST1 at h; linarith
  rcases min_choice itc.igst liab.igst with hm | hm
  · exfalso
    unfold igstAgainstIgst at hlt
    rw [hm] at hlt
    exact lt_irrefl _ hlt
  · unfold igstAgainstIgst
    exact hm

/-! ### Claim C4 — waterfall precedence -/

/-- C4: with the non-negative per-head inputs of the data model, CGST credit is
utilized only against CGST and IGST liability and SGST credit only against SGST and
IGST liability (never against the sibling symmetric head): the utilized-from-CGST
total splits exactly into the `cgstToCgst` and `cgstToIgst` components, the
reduction of CGST liability splits exactly into the `igstToCgst` and `cgstToCgst`
components, and symmetrically for SGST; and IGST credit spills to CGST or SGST
liability only after the IGST liability is fully covered — a positive `igstToCgst`
or `igstToSgst` forces `igstToIgst` to equal the entire initial IGST liability. -/
theorem c4_waterfall_precedence (liab itc : Heads)
    (hl : 0 ≤ liab.igst ∧ 0 ≤ liab.cgst ∧ 0 ≤ liab.sgst ∧ 0 ≤ liab.cess)
    (hi : 0 ≤ itc.igst ∧ 0 ≤ itc.cgst ∧ 0 ≤ itc.sgst ∧ 0 ≤ itc.cess) :
    (computeTaxPayment liab itc).itcUtilized.cgst =
        (computeTaxPayment liab itc).utilization.cgstToCgst +
        (computeTaxPayment liab itc).utilization.cgstToIgst ∧
    (computeTaxPayment liab itc).itcUtilized.sgst =
        (computeTaxPayment liab itc).utilization.sgstToSgst +
        (computeTaxPayment liab itc).utilization.sgstToIgst ∧
    liab.cgst - payCGST2 liab itc =
        (computeTaxPayment liab itc).utilization.igstToCgst +
        (computeTaxPayment liab itc).utilization.cgstToCgst ∧
    liab.sgst - paySGST2 liab itc =
        (computeTaxPayment liab itc).utilization.igstToSgst +
        (computeTaxPayment liab itc).utilization.sgstToSgst ∧
    (0 < (computeTaxPayment liab itc).utilization.igstToCgst →
        (computeTaxPayment liab itc).utilization.igstToIgst = liab.igst) ∧
    (0 < (computeTaxPayment liab itc).utilization.igstToSgst →
        (computeTaxPayment liab itc).utilization.igstToIgst = liab.igst) := by
  simp only [computeTaxPayment]
  refine ⟨?_, ?_, ?_, ?_, ?_, ?_⟩
  · unfold remainCGST2 remainCGST1; ring
  · unfold remainSGST2 remainSGST1; ring
  · unfold payCGST2 payCGST1; ring
  · unfold paySGST2 paySGST1; ring
  · intro h
    unfold igstAgainstCgst at h
    exact igst_fully_used liab itc (lt_min_iff.mp h).1
  · intro h
    unfold igstAgainstSgst at h
    have h2 : 0 < remainIGST2 liab itc := (lt_min_iff.mp h).1
    have hm : 0 ≤ igstAgainstCgst liab itc :=
      le_min (remainIGST1_nonneg liab itc) hl.2.1
    have h1 : 0 < remainIGST1 liab itc := by
      unfold remainIGST2 at h2; linarith
    exact igst_fully_used liab itc h1

/-- C4, witness: with IGST liability 10, CGST liability 20, SGST liability 30 and
IGST credit 100, the spill components are positive, so the precedence theorem
yields `igstToIgst = 10`, the full initial IGST liability. -/
theorem c4_waterfall_precedence_witness :
    (computeTaxPayment ⟨10, 20, 30, 0⟩ ⟨100, 0, 0, 0⟩).utilization.igstToIgst =
      (⟨10, 20, 30, 0⟩ : Heads).igst :=
  (c4_waterfall_precedence ⟨10, 20, 30, 0⟩ ⟨100, 0, 0, 0⟩
    ⟨by norm_num, by norm_num, by norm_num, by norm_num⟩
    ⟨by norm_num, by norm_num, by norm_num, by norm_num⟩).2.2.2.2.1
    (by norm_num [computeTaxPayment, igstAgainstCgst, remainIGST1, igstAgainstIgst,
      min_def])

/-! ### Claim C10 — waterfall output invariants -/

/-- C10, counterexample: with non-negative inputs the reported cash payable can
exceed the head's liability, because the final remaining liability is rounded
half-up to two decimals: an IGST liability of `0.007` and no credit yield a
reported IGST cash payable of `0.01 > 0.007`. -/
theorem c10_counterexample :
    (0:ℚ) ≤ (⟨7/1000, 0, 0, 0⟩ : Heads).igst ∧
    ¬((computeTaxPayment ⟨7/1000, 0, 0, 0⟩ ⟨0, 0, 0, 0⟩).cashPayable.igst ≤
        (⟨7/1000, 0, 0, 0⟩ : Heads).igst) := by
  constructor
  · norm_num
  · norm_num [computeTaxPayment, round2, payIGST3, payIGST2, payIGST1, igstAgainstIgst,
      sgstAgainstIgst, cgstAgainstIgst, remainSGST1, sgstAgainstSgst, paySGST1,
      remainCGST1, cgstAgainstCgst, payCGST1, igstAgainstCgst, remainIGST1, remainIGST2,
      igstAgainstSgst, min_def, max_def]

/-- C10 (amended): for non-negative per-head liability and net-credit inputs every
numeric output of the waterfall is non-negative, the credit utilized from each head
never exceeds that head's available credit, and — for inputs expressible in whole
hundredths, where the two-decimal reporting rounding is the identity — the cash
payable of each head never exceeds that head's liability (the last bound can fail
by up to half a hundredth for sub-hundredth inputs, as the counterexample shows). -/
theorem c10_waterfall_invariants (liab itc : Heads)
    (hl : 0 ≤ liab.igst ∧ 0 ≤ liab.cgst ∧ 0 ≤ liab.sgst ∧ 0 ≤ liab.cess)
    (hi : 0 ≤ itc.igst ∧ 0 ≤ itc.cgst ∧ 0 ≤ itc.sgst ∧ 0 ≤ itc.cess) :
    (0 ≤ (computeTaxPayment liab itc).cashPayable.igst ∧
     0 ≤ (computeTaxPayment liab itc).cashPayable.cgst ∧
     0 ≤ (computeTaxPayment liab itc).cashPayable.sgst ∧
     0 ≤ (computeTaxPayment liab itc).cashPayable.cess ∧
     0 ≤ (computeTaxPayment liab itc).cashPayable.total) ∧
    (0 ≤ (computeTaxPayment liab itc).utilization.igstToIgst ∧
     0 ≤ (computeTaxPayment liab itc).utilization.igstToCgst ∧
     0 ≤ (computeTaxPayment liab itc).utilization.igstToSgst ∧
     0 ≤ (computeTaxPayment liab itc).utilization.cgstToCgst ∧
     0 ≤ (computeTaxPayment liab itc).utilization.cgstToIgst ∧
     0 ≤ (computeTaxPayment liab itc).utilization.sgstToSgst ∧
     0 ≤ (computeTaxPayment liab itc).utilization.sgstToIgst ∧
     0 ≤ (computeTaxPayment liab itc).utilization.cessTocess) ∧
    (0 ≤ (computeTaxPayment liab itc).itcUtilized.igst ∧
     0 ≤ (computeTaxPayment liab itc).itcUtilized.cgst ∧
     0 ≤ (computeTaxPayment liab itc).itcUtilized.sgst ∧
     0 ≤ (computeTaxPayment liab itc).itcUtilized.cess ∧
     0 ≤ (computeTaxPayment liab itc).itcUtilized.total) ∧
    (0 ≤ (computeTaxPayment liab itc).itcBalance.igst ∧
     0 ≤ (computeTaxPayment liab itc).itcBalance.cgst ∧
     0 ≤ (computeTaxPayment liab itc).itcBalance.sgst ∧
     0 ≤ (computeTaxPayment liab itc).itcBalance.cess ∧
     0 ≤ (computeTaxPayment liab itc).itcBalance.total) ∧
    (0 ≤ (computeTaxPayment liab itc).totalLiability ∧
     0 ≤ (computeTaxPayment liab itc).netPayable) ∧
    ((computeTaxPayment liab itc).itcUtilized.igst ≤ itc.igst ∧
     (computeTaxPayment liab itc).itcUtilized.cgst ≤ itc.cgst ∧
     (computeTaxPayment liab itc).itcUtilized.sgst ≤ itc.sgst ∧
     (computeTaxPayment liab itc).itcUtilized.cess ≤ itc.cess) ∧
    (CentHeads liab → CentHeads itc →
      (computeTaxPayment liab itc).cashPayable.igst ≤ liab.igst ∧
      (computeTaxPayment liab itc).cashPayable.cgst ≤ liab.cgst ∧
      (computeTaxPayment liab itc).cashPayable.sgst ≤ liab.sgst ∧
      (computeTaxPayment liab itc).cashPayable.cess ≤ liab.cess) := by
  obtain ⟨hl1, hl2, hl3, hl4⟩ := hl
  obtain ⟨hi1, hi2, hi3, hi4⟩ := hi
  have n1 : 0 ≤ igstAgainstIgst liab itc := le_min hi1 hl1
  have n2 : 0 ≤ igstAgainstCgst liab itc := le_min (remainIGST1_nonneg liab itc) hl2
  have n3 : 0 ≤ igstAgainstSgst liab itc := le_min (remainIGST2_nonneg liab itc) hl3
  have n4 : 0 ≤ cgstAgainstCgst liab itc := le_min hi2 (payCGST1_nonneg liab itc)
  have n5 : 0 ≤ cgstAgainstIgst liab itc :=
    le_min (remainCGST1_nonneg liab itc) (payIGST1_nonneg liab itc)
  have n6 : 0 ≤ sgstAgainstSgst liab itc := le_min hi3 (paySGST1_nonneg liab itc)
  have n7 : 0 ≤ sgstAgainstIgst liab itc :=
    le_min (remainSGST1_nonneg liab itc) (payIGST2_nonneg liab itc)
  have n8 : 0 ≤ cessAgainstCess liab itc := le_min hi4 hl4
  have u1 : itc.igst - remainIGST3 liab itc =
      igstAgainstIgst liab itc + igstAgainstCgst liab itc + igstAgainstSgst liab itc := by
    unfold remainIGST3 remainIGST2 remainIGST1; ring
  have u2 : itc.cgst - remainCGST2 liab itc =
      cgstAgainstCgst liab itc + cgstAgainstIgst liab itc := by
    unfold remainCGST2 remainCGST1; ring
  have u3 : itc.sgst - remainSGST2 liab itc =
      sgstAgainstSgst liab itc + sgstAgainstIgst liab itc := by
    unfold remainSGST2 remainSGST1; ring
  have u4 : itc.cess - remainCESS1 liab itc = cessAgainstCess liab itc := by
    unfold remainCESS1; ring
  have p1 : payIGST3 liab itc =
      liab.igst - igstAgainstIgst liab itc - cgstAgainstIgst liab itc -
        sgstAgainstIgst liab itc := by
    unfold payIGST3 payIGST2 payIGST1; ring
  have p2 : payCGST2 liab itc =
      liab.cgst - igstAgainstCgst liab itc - cgstAgainstCgst liab itc := by
    unfold payCGST2 payCGST1; ring
  have p3 : paySGST2 liab itc =
      liab.sgst - igstAgainstSgst liab itc - sgstAgainstSgst liab itc := by
    unfold paySGST2 paySGST1; ring
  have p4 : payCESS1 liab itc = liab.cess - cessAgainstCess liab itc := by
    unfold payCESS1; ring
  have cashn1 : 0 ≤ round2 (max 0 (payIGST3 liab itc)) :=
    round2_nonneg (le_max_left 0 _)
  have cashn2 : 0 ≤ round2 (max 0 (payCGST2 liab itc)) :=
    round2_nonneg (le_max_left 0 _)
  have cashn3 : 0 ≤ round2 (max 0 (paySGST2 liab itc)) :=
    round2_nonneg (le_max_left 0 _)
  have cashn4 : 0 ≤ round2 (max 0 (payCESS1 liab itc)) :=
    round2_nonneg (le_max_left 0 _)
  have baln1 : 0 ≤ round2 (remainIGST3 liab itc) :=
    round2_nonneg (remainIGST3_nonneg liab itc)
  have baln2 : 0 ≤ round2 (remainCGST2 liab itc) :=
    round2_nonneg (remainCGST2_nonneg liab itc)
  have baln3 : 0 ≤ round2 (remainSGST2 liab itc) :=
    round2_nonneg (remainSGST2_nonneg liab itc)
  have baln4 : 0 ≤ round2 (remainCESS1 liab itc) :=
    round2_nonneg (remainCESS1_nonneg liab itc)
  simp only [computeTaxPayment]
  refine ⟨⟨cashn1, cashn2, cashn3, cashn4, by linarith⟩,
    ⟨n1, n2, n3, n4, n5, n6, n7, n8⟩,
    ⟨by linarith, by linarith, by linarith, by linarith, by linarith⟩,
    ⟨baln1, baln2, baln3, baln4, by linarith⟩,
    ⟨by linarith, by linarith⟩,
    ⟨?_, ?_, ?_, ?_⟩, ?_⟩
  · have := remainIGST3_nonneg liab itc; linarith
  · have := remainCGST2_nonneg liab itc; linarith
  · have := remainSGST2_nonneg liab itc; linarith
  · have := remainCESS1_nonneg liab itc; linarith
  · intro hcl hci
    obtain ⟨c1, c2, c3, c4, _, _, _, _⟩ := cent_stages hcl hci
    rw [max_eq_right (payIGST3_nonneg liab itc), round2_cent c1,
      max_eq_right (payCGST2_nonneg liab itc), round2_cent c2,
      max_eq_right (paySGST2_nonneg liab itc), round2_cent c3,
      max_eq_right (payCESS1_nonneg liab itc), round2_cent c4]
    refine ⟨by linarith, by linarith, by linarith, by linarith⟩

/-- C10, witness: the invariants evaluated at a concrete non-negative whole-cent
input: the IGST credit utilized never exceeds the available 120, and the IGST cash
payable never exceeds the liability 100. -/
theorem c10_waterfall_invariants_witness :
    (computeTaxPayment ⟨100, 200, 50, 10⟩ ⟨120, 30, 80, 5⟩).itcUtilized.igst ≤
      (⟨120, 30, 80, 5⟩ : Heads).igst ∧
    (computeTaxPayment ⟨100, 200, 50, 10⟩ ⟨120, 30, 80, 5⟩).cashPayable.igst ≤
      (⟨100, 200, 50, 10⟩ : Heads).igst := by
  have h := c10_waterfall_invariants ⟨100, 200, 50, 10⟩ ⟨120, 30, 80, 5⟩
    ⟨by norm_num, by norm_num, by norm_num, by norm_num⟩
    ⟨by norm_num, by norm_num, by norm_num, by norm_num⟩
  exact ⟨h.2.2.2.2.2.1.1,
    (h.2.2.2.2.2.2
      ⟨⟨10000, by norm_num⟩, ⟨20000, by norm_num⟩, ⟨5000, by norm_num⟩,
        ⟨1000, by norm_num⟩⟩
      ⟨⟨12000, by norm_num⟩, ⟨3000, by norm_num⟩, ⟨8000, by norm_num⟩,
        ⟨500, by norm_num⟩⟩).1⟩

/-! ## fileParser.js — sales ↔ GSTR-1 reconciliation engine -/

/-- An invoice record as consumed by `reconcileData`.  A JavaScript record may lack a
field; every consumer in the source coerces a missing/unparseable value with
`|| 0` (numbers) or treats it as falsy (strings), so absent values are modelled as
`0` / `""`.  The `cess` field and free-form passthrough columns are carried by the
source but never read by the reconciliation engine and are omitted. -/
structure Invoice where
  invoiceNo : String
  date : String
  customerGSTIN : String
  customerName : String
  taxableAmount : ℚ
  cgst : ℚ
  sgst : ℚ
  igst : ℚ
  totalAmount : ℚ
deriving Repr, DecidableEq

/-- `normalizeInvoiceNo` from `fileParser.js`: trim, uppercase, remove all
whitespace (`/\s+/g`), strip leading zeros (`/^0+/`).  `!invoiceNo` guards the
absent/empty case. -/
def normalizeInvoiceNo (invoiceNo : String) : String :=
  if invoiceNo = "" then ""
  else
    String.mk
      (((jsToUpper (jsTrim invoiceNo)).toList.filter
        (fun c => !c.isWhitespace)).dropWhile (fun c => c = '0'))

/-- `salesNo.replace(/[^0-9]/g, '')`: keep only the decimal digits. -/
def digitsOnly (s : String) : String := String.mk (s.toList.filter Char.isDigit)

/-- Insert a value into an association list of buckets, preserving first-insertion
key order and input order within a bucket — the behaviour of the insertion-ordered
JavaScript `Map` used by `buildInvoiceMap`. -/
def insertAssoc {α : Type} (m : List (String × List α)) (k : String) (a : α) :
    List (String × List α) :=
  match m with
  | [] => [(k, [a])]
  | (k₀, b) :: rest =>
    if k₀ = k then (k₀, b ++ [a]) :: rest else (k₀, b) :: insertAssoc rest k a

/-- `Map.prototype.get`, returning `none` for an absent key. -/
def lookupAssoc {α : Type} (m : List (String × List α)) (k : String) :
    Option (List α) :=
  match m with
  | [] => none
  | (k₀, b) :: rest => if k₀ = k then some b else lookupAssoc rest k

/-- `buildInvoiceMap` from `fileParser.js`: a multi-map from normalized invoice
number to the invoices sharing it, skipping records with a falsy `invoiceNo`.
(The `_source` tag the source spreads onto each stored copy is bookkeeping that no
consumer reads; it is omitted.) -/
def buildInvoiceMap (invoices : List Invoice) : List (String × List Invoice) :=
  invoices.foldl
    (fun m inv =>
      if inv.invoiceNo = "" then m
      else insertAssoc m (normalizeInvoiceNo inv.invoiceNo) inv)
    []

/-- The per-candidate confidence score computed inside the loop of
`findFuzzyMatch`: 0.9 for equal non-empty digit subsequences plus equal GSTINs,
else 0.7 for equal GSTINs plus total amounts within the hard-coded `< 1` window,
else 0.  `key` is the candidate's key in the GSTR-1 map (the source reads the digit
subsequence off the map key). -/
def fuzzyConfidence (salesInv gstr1Inv : Invoice) (key : String) : ℚ :=
  let salesNo := normalizeInvoiceNo salesInv.invoiceNo
  let numericSales := digitsOnly salesNo
  let numericGSTR1 := digitsOnly key
  if numericSales ≠ "" ∧ numericSales = numericGSTR1 ∧
      salesInv.customerGSTIN ≠ "" ∧ gstr1Inv.customerGSTIN ≠ "" ∧
      jsToUpper salesInv.customerGSTIN = jsToUpper gstr1Inv.customerGSTIN then
    9/10
  else if salesInv.customerGSTIN ≠ "" ∧ gstr1Inv.customerGSTIN ≠ "" ∧
      jsToUpper salesInv.customerGSTIN = jsToUpper gstr1Inv.customerGSTIN ∧
      |salesInv.totalAmount - gstr1Inv.totalAmount| < 1 then
    7/10
  else 0

/-- The body of the `for (const [key, gstr1Invoices] of gstr1Map.entries())` loop of
`findFuzzyMatch`: skip consumed keys, score the first invoice of the bucket, keep
the candidate when `confidence > bestConfidence && confidence >= 0.7`. -/
def fuzzyStep (salesInv : Invoice) (processedSet : List String)
    (best : Option (Invoice × ℚ)) (e : String × List Invoice) :
    Option (Invoice × ℚ) :=
  if e.1 ∈ processedSet then best
  else
    match e.2.head? with
    | none => best
    | some gstr1Inv =>
      let confidence := fuzzyConfidence salesInv gstr1Inv e.1
      let bestConfidence := (best.map Prod.snd).getD 0
      if bestConfidence < confidence ∧ 7/10 ≤ confidence then
        some (gstr1Inv, confidence)
      else best

/-- `findFuzzyMatch` from `fileParser.js`: scan the GSTR-1 map in insertion order
with `fuzzyStep`, starting from no candidate. -/
def findFuzzyMatch (salesInv : Invoice) (gstr1Map : List (String × List Invoice))
    (processedSet : List String) : Option (Invoice × ℚ) :=
  gstr1Map.foldl (fuzzyStep salesInv processedSet) none

/-- `s.padStart(2, '0')` for the day/month components. -/
def pad2 (s : String) : String := if s.length < 2 then "0" ++ s else s

/-- Every character is a decimal digit. -/
def allDigits (s : String) : Bool := s.toList.all Char.isDigit

/-- `normalizeDate` from `fileParser.js`: recognise day-month-year (one or two
digits, one or two digits, four digits) and year-month-day (four digits, one or two
digits, one or two digits) with `-`, `/` or `.` separators, and rebuild the
canonical `yyyy-mm-dd`; anything else (including the empty string) is returned
as-is (after trimming). -/
def normalizeDate (dateStr : String) : String :=
  if dateStr = "" then ""
  else
    let str := jsTrim dateStr
    match str.split (fun c => c = '-' ∨ c = '/' ∨ c = '.') with
    | [a, b, c] =>
      if allDigits a ∧ allDigits b ∧ allDigits c then
        if 1 ≤ a.length ∧ a.length ≤ 2 ∧ 1 ≤ b.length ∧ b.length ≤ 2 ∧
            c.length = 4 then
          c ++ "-" ++ pad2 b ++ "-" ++ pad2 a
        else if a.length = 4 ∧ 1 ≤ b.length ∧ b.length ≤ 2 ∧ 1 ≤ c.length ∧
            c.length ≤ 2 then
          a ++ "-" ++ pad2 b ++ "-" ++ pad2 c
        else str
      else str
    | _ => str

/-- One entry of a comparison's `discrepancies` array.  The observed values, label
and numeric delta carried by the source object are report-only payload and are
omitted; `field` and `severity` identify the discrepancy. -/
structure Discrepancy where
  field : String
  severity : String
deriving Repr, DecidableEq

/-- The comparison object built by `compareInvoices` (its derived `status` string is
omitted; `matchConfidence` is `none` where the source leaves the property
undefined). -/
structure Comparison where
  invoiceNo : String
  salesInvoice : Invoice
  gstr1Invoice : Invoice
  discrepancies : List Discrepancy
  totalDifference : ℚ
  matchType : String
  matchConfidence : Option ℚ
deriving Repr, DecidableEq

/-- The five monetary fields compared by `compareInvoices`, in source order. -/
def monetaryFields : List (String × (Invoice → ℚ)) :=
  [("taxableAmount", Invoice.taxableAmount),
   ("cgst", Invoice.cgst),
   ("sgst", Invoice.sgst),
   ("igst", Invoice.igst),
   ("totalAmount", Invoice.totalAmount)]

/-- `compareInvoices` from `fileParser.js`: a discrepancy per monetary field with
`|salesVal − gstr1Val| > tolerance` (severity by magnitude), plus a high-severity
GSTIN discrepancy when both GSTINs are non-empty and differ, plus a medium-severity
date discrepancy when both normalized dates are non-empty and differ. -/
def compareInvoices (salesInv gstr1Inv : Invoice) (tolerance : ℚ) : Comparison :=
  let fieldDiscrepancies := monetaryFields.filterMap
    (fun f =>
      let diff := f.2 salesInv - f.2 gstr1Inv
      if tolerance < |diff| then
        some { field := f.1
               severity := if 100 < |diff| then "high"
                           else if 10 < |diff| then "medium" else "low" }
      else none)
  let salesGSTIN := jsTrim (jsToUpper salesInv.customerGSTIN)
  let gstr1GSTIN := jsTrim (jsToUpper gstr1Inv.customerGSTIN)
  let gstinDiscrepancies :=
    if salesGSTIN ≠ "" ∧ gstr1GSTIN ≠ "" ∧ salesGSTIN ≠ gstr1GSTIN then
      [{ field := "customerGSTIN", severity := "high" : Discrepancy }]
    else []
  let salesDate := normalizeDate salesInv.date
  let gstr1Date := normalizeDate gstr1Inv.date
  let dateDiscrepancies :=
    if salesDate ≠ "" ∧ gstr1Date ≠ "" ∧ salesDate ≠ gstr1Date then
      [{ field := "date", severity := "medium" : Discrepancy }]
    else []
  { invoiceNo := salesInv.invoiceNo
    salesInvoice := salesInv
    gstr1Invoice := gstr1Inv
    discrepancies := fieldDiscrepancies ++ gstinDiscrepancies ++ dateDiscrepancies
    totalDifference := round2 (salesInv.totalAmount - gstr1Inv.totalAmount)
    matchType := "exact"
    matchConfidence := none }

/-- The mutable state threaded through the matching loop of `reconcileData`.
`processedGSTR1` is the JavaScript `Set` of consumed GSTR-1 keys (a list here; only
membership is ever used). -/
structure RState where
  matched : List Comparison
  mismatched : List Comparison
  missingSalesInGSTR1 : List Invoice
  missingGSTR1InSales : List Invoice
  duplicates : List (String × List Invoice)
  processedGSTR1 : List String
deriving Repr, DecidableEq

/-- The state at entry of the matching loop. -/
def initialRState : RState := ⟨[], [], [], [], [], []⟩

/-- The duplicate check at the top of the matching loop: a sales bucket of length
`> 1` is reported in `duplicates` (and only there — the extra occurrences take part
in nothing else). -/
def recordSalesDuplicate (st : RState) (entry : String × List Invoice) : RState :=
  if 1 < entry.2.length then
    { st with duplicates := st.duplicates ++ [("sales_duplicate", entry.2)] }
  else st

/-- The duplicate check inside the exact-match branch, for the GSTR-1 bucket. -/
def recordGstr1Duplicate (st : RState) (bucket : List Invoice) : RState :=
  match bucket with
  | [] => st
  | g :: rest =>
    if 0 < rest.length then
      { st with duplicates := st.duplicates ++ [("gstr1_duplicate", g :: rest)] }
    else st

/-- The body of the `for (const [key, salesInvoices] of salesMap.entries())` loop of
`reconcileData`: duplicate detection, exact match against the GSTR-1 map (which
never consults `processedGSTR1`), fuzzy fallback, missing classification.  The
missing-in-GSTR-1 record is stored without the report-only `status`/`severity`/
`suggestion` annotations the source spreads onto it. -/
def processSales (toleranceAmount : ℚ) (gstr1Map : List (String × List Invoice))
    (st₀ : RState) (entry : String × List Invoice) : RState :=
  let st := recordSalesDuplicate st₀ entry
  match entry.2.head? with
  | none => st
  | some salesInv =>
    match (lookupAssoc gstr1Map entry.1).getD [] with
    | [] =>
      match findFuzzyMatch salesInv gstr1Map st.processedGSTR1 with
      | some (fInv, conf) =>
        let comparison₀ := compareInvoices salesInv fInv toleranceAmount
        let comparison :=
          { comparison₀ with matchType := "fuzzy", matchConfidence := some conf }
        let st :=
          if comparison.discrepancies.isEmpty then
            { st with matched := st.matched ++ [comparison] }
          else
            { st with mismatched := st.mismatched ++ [comparison] }
        { st with
          processedGSTR1 := st.processedGSTR1 ++ [normalizeInvoiceNo fInv.invoiceNo] }
      | none =>
        { st with
          missingSalesInGSTR1 := st.missingSalesInGSTR1 ++ [salesInv] }
    | gstr1Inv :: rest =>
      let st := { st with processedGSTR1 := st.processedGSTR1 ++ [entry.1] }
      let st := recordGstr1Duplicate st (gstr1Inv :: rest)
      let comparison := compareInvoices salesInv gstr1Inv toleranceAmount
      if comparison.discrepancies.isEmpty then
        { st with matched := st.matched ++ [comparison] }
      else
        { st with mismatched := st.mismatched ++ [comparison] }

/-- The `for (const [key, gstr1Invoices] of gstr1Map.entries())` sweep of
`reconcileData` that classifies never-consumed GSTR-1 invoices as missing in the
sales register. -/
def sweepGSTR1 (st : RState) (gstr1Map : List (String × List Invoice)) : RState :=
  gstr1Map.foldl
    (fun st e =>
      if e.1 ∈ st.processedGSTR1 then st
      else { st with missingGSTR1InSales := st.missingGSTR1InSales ++ e.2 })
    st

/-- The matching pipeline of `reconcileData` as a function of the two built maps. -/
def reconcileCore (toleranceAmount : ℚ)
    (salesMap gstr1Map : List (String × List Invoice)) : RState :=
  sweepGSTR1 (salesMap.foldl (processSales toleranceAmount gstr1Map) initialRState)
    gstr1Map

/-- The reconciliation result (summary counters, maintained by the source in
lockstep with the output lists, are the lengths of those lists; the monthly and
customer breakdowns, `validationIssues` and `totalDiscrepancyAmount` are
report-only aggregations omitted here). -/
structure ReconcileResult where
  totalSalesInvoices : ℕ
  totalGSTR1Invoices : ℕ
  matched : List Comparison
  mismatched : List Comparison
  missingSalesInGSTR1 : List Invoice
  missingGSTR1InSales : List Invoice
  duplicates : List (String × List Invoice)
deriving Repr, DecidableEq

/-- `reconcileData(salesData, gstr1Data, options)` from `fileParser.js`, as a
function of the effective tolerance (`options.toleranceAmount || 1`). -/
def reconcileData (salesData gstr1Data : List Invoice) (toleranceAmount : ℚ) :
    ReconcileResult :=
  let salesMap := buildInvoiceMap salesData
  let gstr1Map := buildInvoiceMap gstr1Data
  let st := reconcileCore toleranceAmount salesMap gstr1Map
  { totalSalesInvoices := salesData.length
    totalGSTR1Invoices := gstr1Data.length
    matched := st.matched
    mismatched := st.mismatched
    missingSalesInGSTR1 := st.missingSalesInGSTR1
    missingGSTR1InSales := st.missingGSTR1InSales
    duplicates := st.duplicates }

/-! ## gstr2Reconciliation.js — purchase ↔ GSTR-2A/2B reconciliation (the twin) -/

/-- A purchase-side invoice record.  Purchase records may carry the counterparty id
in either `sellerGSTIN` or `supplierGSTIN` (the source reads
`purchase.sellerGSTIN || purchase.supplierGSTIN`); GSTR-2 records use
`supplierGSTIN`.  Absent fields are `""` / `0` as before; fields the matching loop
never reads are omitted. -/
structure PInvoice where
  invoiceNo : String
  supplierGSTIN : String
  sellerGSTIN : String
  taxableAmount : ℚ
  cgst : ℚ
  sgst : ℚ
  igst : ℚ
  totalAmount : ℚ
deriving Repr, DecidableEq

/-- `normalizeInvNo` from `gstr2Reconciliation.js`: remove whitespace, hyphens,
slashes, backslashes and dots, then uppercase. -/
def normalizeInvNo (invNo : String) : String :=
  if invNo = "" then ""
  else
    jsToUpper (String.mk (invNo.toList.filter
      (fun c => !(c.isWhitespace || c = '-' || c = '/' || c = '\\' || c = '.'))))

/-- `(purchase.sellerGSTIN || purchase.supplierGSTIN || '').toUpperCase()`. -/
def purchaseGSTIN (p : PInvoice) : String :=
  jsToUpper (if p.sellerGSTIN ≠ "" then p.sellerGSTIN else p.supplierGSTIN)

/-- The composite lookup key `${gstin}_${key}` of the purchase reconciliation. -/
def compositeKey (gstin key : String) : String := gstin ++ "_" ++ key

/-- The five monetary fields compared by `comparePurchaseInvoice`, in source
order. -/
def pMonetaryFields : List (String × (PInvoice → ℚ)) :=
  [("taxableAmount", PInvoice.taxableAmount),
   ("cgst", PInvoice.cgst),
   ("sgst", PInvoice.sgst),
   ("igst", PInvoice.igst),
   ("totalAmount", PInvoice.totalAmount)]

/-- `comparePurchaseInvoice` from `gstr2Reconciliation.js`: a discrepancy per
monetary field beyond the tolerance (severity `error` above 100, else `warning`),
plus a GSTIN discrepancy when both GSTINs are non-empty and differ. -/
def comparePurchaseInvoice (purchase gstr2 : PInvoice) (tolerance : ℚ) :
    List Discrepancy :=
  let fieldDiscrepancies := pMonetaryFields.filterMap
    (fun f =>
      let diff := f.2 purchase - f.2 gstr2
      if tolerance < |diff| then
        some { field := f.1
               severity := if 100 < |diff| then "error" else "warning" : Discrepancy }
      else none)
  let pGSTIN := purchaseGSTIN purchase
  let gGSTIN := jsToUpper gstr2.supplierGSTIN
  let gstinDiscrepancies :=
    if pGSTIN ≠ "" ∧ gGSTIN ≠ "" ∧ pGSTIN ≠ gGSTIN then
      [{ field := "gstin", severity := "error" : Discrepancy }]
    else []
  fieldDiscrepancies ++ gstinDiscrepancies

/-- The indexed scan of `findFuzzyMatch2A`: first unconsumed GSTR-2 invoice with
the same (non-empty) GSTIN and `|Δ totalAmount| <= 1`. -/
def fuzzyScan2A (purchase : PInvoice) (used : List ℕ) :
    ℕ → List PInvoice → Option (PInvoice × ℕ)
  | _, [] => none
  | i, g :: rest =>
    if i ∈ used then fuzzyScan2A purchase used (i + 1) rest
    else if purchaseGSTIN purchase ≠ "" ∧ purchaseGSTIN purchase = jsToUpper g.supplierGSTIN ∧
        |purchase.totalAmount - g.totalAmount| ≤ 1 then
      some (g, i)
    else fuzzyScan2A purchase used (i + 1) rest

/-- `findFuzzyMatch2A(purchase, gstr2Data, usedSet)` from `gstr2Reconciliation.js`;
the `_index` the source attaches to the returned record is the second component. -/
def findFuzzyMatch2A (purchase : PInvoice) (gstr2Data : List PInvoice)
    (used : List ℕ) : Option (PInvoice × ℕ) :=
  fuzzyScan2A purchase used 0 gstr2Data

/-- One element of the `matched` / `mismatched` arrays of the purchase
reconciliation: `{purchase, gstr2, discrepancies}`. -/
structure PEntry where
  purchase : PInvoice
  gstr2 : PInvoice
  discrepancies : List Discrepancy
deriving Repr, DecidableEq

/-- The identifier-mismatch annotation appended to a fuzzy pair's discrepancies by
the purchase reconciliation (its interpolated `message` payload is omitted). -/
def invoiceNoMismatch : Discrepancy := { field := "invoiceNo", severity := "warning" }

/-- State threaded through the purchase matching loop; `gstr2Used` is the set of
consumed GSTR-2 indices. -/
structure PState where
  matched : List PEntry
  mismatched : List PEntry
  missingInGSTR2 : List PInvoice
  gstr2Used : List ℕ
deriving Repr, DecidableEq

/-- Initial purchase-loop state. -/
def initialPState : PState := ⟨[], [], [], []⟩

/-- `gstr2Map` of the purchase reconciliation: composite key → invoices with their
indices, in input order. -/
def buildGstr2Map (gstr2Data : List PInvoice) : List (String × List (PInvoice × ℕ)) :=
  gstr2Data.enum.foldl
    (fun m ig =>
      insertAssoc m
        (compositeKey (jsToUpper ig.2.supplierGSTIN) (normalizeInvNo ig.2.invoiceNo))
        (ig.2, ig.1))
    []

/-- The body of the `for (const purchase of purchaseData)` loop of
`reconcilePurchaseWith2A2B`: exact match on the composite key taking the first
unconsumed candidate, fuzzy fallback (which always lands in `mismatched` with the
`invoiceNo` annotation appended), else missing. -/
def processPurchase (tolerance : ℚ) (gstr2Map : List (String × List (PInvoice × ℕ)))
    (gstr2Data : List PInvoice) (st : PState) (purchase : PInvoice) : PState :=
  let key := compositeKey (purchaseGSTIN purchase) (normalizeInvNo purchase.invoiceNo)
  let candidates := (lookupAssoc gstr2Map key).getD []
  match candidates.find? (fun ci => decide (ci.2 ∉ st.gstr2Used)) with
  | some (candidate, i) =>
    let discrepancies := comparePurchaseInvoice purchase candidate tolerance
    let st :=
      if discrepancies.isEmpty then
        { st with matched := st.matched ++ [(⟨purchase, candidate, []⟩ : PEntry)] }
      else
        { st with mismatched := st.mismatched ++ [(⟨purchase, candidate, discrepancies⟩ : PEntry)] }
    { st with gstr2Used := st.gstr2Used ++ [i] }
  | none =>
    match findFuzzyMatch2A purchase gstr2Data st.gstr2Used with
    | some (g, i) =>
      { st with
        mismatched := st.mismatched ++
          [(⟨purchase, g, comparePurchaseInvoice purchase g tolerance ++ [invoiceNoMismatch]⟩ : PEntry)]
        gstr2Used := st.gstr2Used ++ [i] }
    | none =>
      { st with missingInGSTR2 := st.missingInGSTR2 ++ [purchase] }

/-- Result of the purchase reconciliation (the ITC summary and supplier breakdown,
pure reporting sums over the same outcome, are omitted; counters are list
lengths). -/
structure PResult where
  totalPurchaseInvoices : ℕ
  totalGSTR2Invoices : ℕ
  matched : List PEntry
  mismatched : List PEntry
  missingInGSTR2 : List PInvoice
  missingInPurchase : List PInvoice
deriving Repr, DecidableEq

/-- `reconcilePurchaseWith2A2B(purchaseData, gstr2Data, options)` from
`gstr2Reconciliation.js`, as a function of the effective tolerance
(`options.tolerance || 1`). -/
def reconcilePurchaseWith2A2B (purchaseData gstr2Data : List PInvoice)
    (tolerance : ℚ) : PResult :=
  let gstr2Map := buildGstr2Map gstr2Data
  let st := purchaseData.foldl (processPurchase tolerance gstr2Map gstr2Data)
    initialPState
  let missingInPurchase := gstr2Data.enum.foldl
    (fun acc ig => if ig.1 ∈ st.gstr2Used then acc else acc ++ [ig.2]) []
  { totalPurchaseInvoices := purchaseData.length
    totalGSTR2Invoices := gstr2Data.length
    matched := st.matched
    mismatched := st.mismatched
    missingInGSTR2 := st.missingInGSTR2
    missingInPurchase := missingInPurchase }

/-! ## Concrete runs of the matcher -/

set_option maxRecDepth 10000

/-! ### Claim C5 — the spec's example scenario 1 -/

/-- C5, counterexample: key normalization does *not* collapse the hyphen —
`normalizeInvoiceNo` removes only whitespace and leading zeros — so the spec's
scenario-1 pair does not collide to one exact key; the match that is produced is a
fuzzy one, not an exact one. -/
theorem c5_counterexample :
    normalizeInvoiceNo "INV-001" ≠ normalizeInvoiceNo "inv001" ∧
    (reconcileData [⟨"INV-001", "", "GSTIN1", "", 0, 0, 0, 0, 1000⟩]
        [⟨"inv001", "", "GSTIN1", "", 0, 0, 0, 0, 1000⟩] 1).matched.map
      Comparison.matchType ≠ ["exact"] := by
  constructor
  · decide
  · norm_num +decide [reconcileData, reconcileCore, buildInvoiceMap, insertAssoc,
      processSales, sweepGSTR1, initialRState, lookupAssoc, findFuzzyMatch, fuzzyStep,
      recordSalesDuplicate, recordGstr1Duplicate, fuzzyConfidence, compareInvoices, monetaryFields, normalizeInvoiceNo, digitsOnly,
      normalizeDate, jsToUpper, jsTrim, List.filterMap_cons, List.filterMap_nil]

/-- C5 (amended): on the spec's scenario-1 pair the Matcher does produce a single
match with zero discrepancies, but it is a *fuzzy* match at confidence 0.9 (equal
non-empty digit subsequences plus equal counterparty ids), because normalization
removes whitespace and leading zeros but not hyphens, so the exact-key lookup
misses. -/
theorem c5_amended :
    (reconcileData [⟨"INV-001", "", "GSTIN1", "", 0, 0, 0, 0, 1000⟩]
        [⟨"inv001", "", "GSTIN1", "", 0, 0, 0, 0, 1000⟩] 1).matched.map
      (fun c => (c.matchType, c.matchConfidence, c.discrepancies)) =
        [("fuzzy", some (9/10), [])] ∧
    (reconcileData [⟨"INV-001", "", "GSTIN1", "", 0, 0, 0, 0, 1000⟩]
        [⟨"inv001", "", "GSTIN1", "", 0, 0, 0, 0, 1000⟩] 1).mismatched = [] ∧
    (reconcileData [⟨"INV-001", "", "GSTIN1", "", 0, 0, 0, 0, 1000⟩]
        [⟨"inv001", "", "GSTIN1", "", 0, 0, 0, 0, 1000⟩] 1).missingSalesInGSTR1 = [] ∧
    (reconcileData [⟨"INV-001", "", "GSTIN1", "", 0, 0, 0, 0, 1000⟩]
        [⟨"inv001", "", "GSTIN1", "", 0, 0, 0, 0, 1000⟩] 1).missingGSTR1InSales = [] := by
  norm_num +decide [reconcileData, reconcileCore, buildInvoiceMap, insertAssoc,
    processSales, sweepGSTR1, initialRState, lookupAssoc, findFuzzyMatch, fuzzyStep,
    recordSalesDuplicate, recordGstr1Duplicate, fuzzyConfidence, compareInvoices, monetaryFields, normalizeInvoiceNo, digitsOnly,
    normalizeDate, jsToUpper, jsTrim, List.filterMap_cons, List.filterMap_nil]

/-! ### Claim C2 — single consumption of right-side invoices -/

/-- C2: the claim fails on the code, and the source's own design (the fuzzy scan and
the final missing sweep both honour `processedGSTR1`, which exists precisely to
prevent reuse) marks this as a slip in the exact-match path, which never consults
the consumed set.  Concretely: sales `X1` fuzzy-consumes the single GSTR-1 invoice
`B9` first, and sales `B9` then exact-matches the very same invoice, so the lone
right-side invoice ends up in two matched pairs. -/
theorem c2_bug :
    (reconcileData
        [⟨"X1", "", "G1", "", 0, 0, 0, 0, 100⟩, ⟨"B9", "", "G1", "", 0, 0, 0, 0, 100⟩]
        [⟨"B9", "", "G1", "", 0, 0, 0, 0, 100⟩] 1).totalGSTR1Invoices = 1 ∧
    (reconcileData
        [⟨"X1", "", "G1", "", 0, 0, 0, 0, 100⟩, ⟨"B9", "", "G1", "", 0, 0, 0, 0, 100⟩]
        [⟨"B9", "", "G1", "", 0, 0, 0, 0, 100⟩] 1).matched.map
      (fun c => (c.matchType, c.gstr1Invoice)) =
        [("fuzzy", ⟨"B9", "", "G1", "", 0, 0, 0, 0, 100⟩),
         ("exact", ⟨"B9", "", "G1", "", 0, 0, 0, 0, 100⟩)] := by
  norm_num +decide [reconcileData, reconcileCore, buildInvoiceMap, insertAssoc,
    processSales, sweepGSTR1, initialRState, lookupAssoc, findFuzzyMatch, fuzzyStep,
    recordSalesDuplicate, recordGstr1Duplicate, fuzzyConfidence, compareInvoices, monetaryFields, normalizeInvoiceNo, digitsOnly,
    normalizeDate, jsToUpper, jsTrim, List.filterMap_cons, List.filterMap_nil]

/-! ### Claim C6 — the 0.7 fuzzy tier ignores `toleranceAmount` -/

/-- C6, counterexample: with `toleranceAmount = 10`, a candidate with the same
counterparty id and a total-amount difference of `5 < 10` does *not* qualify at the
0.7 tier — the sales invoice is reported missing — because the fuzzy scorer uses a
hard-coded `< 1` window, not the configured tolerance. -/
theorem c6_counterexample :
    (⟨"X1", "", "G1", "", 0, 0, 0, 0, 100⟩ : Invoice).customerGSTIN =
      (⟨"B9", "", "G1", "", 0, 0, 0, 0, 105⟩ : Invoice).customerGSTIN ∧
    |(⟨"X1", "", "G1", "", 0, 0, 0, 0, 100⟩ : Invoice).totalAmount -
      (⟨"B9", "", "G1", "", 0, 0, 0, 0, 105⟩ : Invoice).totalAmount| < 10 ∧
    (reconcileData [⟨"X1", "", "G1", "", 0, 0, 0, 0, 100⟩]
        [⟨"B9", "", "G1", "", 0, 0, 0, 0, 105⟩] 10).matched = [] ∧
    (reconcileData [⟨"X1", "", "G1", "", 0, 0, 0, 0, 100⟩]
        [⟨"B9", "", "G1", "", 0, 0, 0, 0, 105⟩] 10).mismatched = [] ∧
    (reconcileData [⟨"X1", "", "G1", "", 0, 0, 0, 0, 100⟩]
        [⟨"B9", "", "G1", "", 0, 0, 0, 0, 105⟩] 10).missingSalesInGSTR1 =
      [⟨"X1", "", "G1", "", 0, 0, 0, 0, 100⟩] := by
  refine ⟨by decide, by norm_num, ?_⟩
  norm_num +decide [reconcileData, reconcileCore, buildInvoiceMap, insertAssoc,
    processSales, sweepGSTR1, initialRState, lookupAssoc, findFuzzyMatch, fuzzyStep,
    recordSalesDuplicate, recordGstr1Duplicate, fuzzyConfidence, compareInvoices, monetaryFields, normalizeInvoiceNo, digitsOnly,
    normalizeDate, jsToUpper, jsTrim, List.filterMap_cons, List.filterMap_nil]

/-- C6 (amended): the fuzzy scorer assigns confidence 0.7 to a candidate exactly
when the 0.9 tier does not apply, both counterparty ids are present and equal
case-insensitively, and the absolute difference of total amounts is below the fixed
constant `1` — the caller-configured `toleranceAmount` plays no role in fuzzy
scoring (the scorer does not even receive it). -/
theorem c6_amended (salesInv gstr1Inv : Invoice) (key : String) :
    fuzzyConfidence salesInv gstr1Inv key = 7/10 ↔
      (¬(digitsOnly (normalizeInvoiceNo salesInv.invoiceNo) ≠ "" ∧
          digitsOnly (normalizeInvoiceNo salesInv.invoiceNo) = digitsOnly key ∧
          salesInv.customerGSTIN ≠ "" ∧ gstr1Inv.customerGSTIN ≠ "" ∧
          jsToUpper salesInv.customerGSTIN = jsToUpper gstr1Inv.customerGSTIN) ∧
        salesInv.customerGSTIN ≠ "" ∧ gstr1Inv.customerGSTIN ≠ "" ∧
        jsToUpper salesInv.customerGSTIN = jsToUpper gstr1Inv.customerGSTIN ∧
        |salesInv.totalAmount - gstr1Inv.totalAmount| < 1) := by
  simp only [fuzzyConfidence]
  split_ifs with h1 h2
  · exact ⟨fun h => by norm_num at h, fun ⟨hn, _⟩ => absurd h1 hn⟩
  · exact ⟨fun _ => ⟨h1, h2⟩, fun _ => rfl⟩
  · exact ⟨fun h => by norm_num at h, fun ⟨_, h⟩ => absurd h h2⟩

/-! ### Claims C1, C7, C8 — concrete counterexamples -/

/-- C1, counterexample: two sales invoices sharing one normalized key collapse to a
single participant (the duplicate is reported in `duplicates` but lands in no
outcome bucket), so `|L| + |R| = 2·|matched| + 2·|mismatched| + |missing…|` fails:
here `2 + 0 ≠ 0 + 0 + 1 + 0`. -/
theorem c1_counterexample :
    (reconcileData [⟨"D1", "", "G1", "", 0, 0, 0, 0, 100⟩,
        ⟨"D1", "", "G1", "", 0, 0, 0, 0, 200⟩] [] 1).totalSalesInvoices +
      (reconcileData [⟨"D1", "", "G1", "", 0, 0, 0, 0, 100⟩,
        ⟨"D1", "", "G1", "", 0, 0, 0, 0, 200⟩] [] 1).totalGSTR1Invoices ≠
    2 * (reconcileData [⟨"D1", "", "G1", "", 0, 0, 0, 0, 100⟩,
        ⟨"D1", "", "G1", "", 0, 0, 0, 0, 200⟩] [] 1).matched.length +
      2 * (reconcileData [⟨"D1", "", "G1", "", 0, 0, 0, 0, 100⟩,
        ⟨"D1", "", "G1", "", 0, 0, 0, 0, 200⟩] [] 1).mismatched.length +
      (reconcileData [⟨"D1", "", "G1", "", 0, 0, 0, 0, 100⟩,
        ⟨"D1", "", "G1", "", 0, 0, 0, 0, 200⟩] [] 1).missingSalesInGSTR1.length +
      (reconcileData [⟨"D1", "", "G1", "", 0, 0, 0, 0, 100⟩,
        ⟨"D1", "", "G1", "", 0, 0, 0, 0, 200⟩] [] 1).missingGSTR1InSales.length := by
  norm_num +decide [reconcileData, reconcileCore, buildInvoiceMap, insertAssoc,
    processSales, sweepGSTR1, initialRState, lookupAssoc, findFuzzyMatch, fuzzyStep,
    recordSalesDuplicate, recordGstr1Duplicate, fuzzyConfidence, compareInvoices, monetaryFields, normalizeInvoiceNo, digitsOnly,
    normalizeDate, jsToUpper, jsTrim, List.filterMap_cons, List.filterMap_nil]

/-- C7, counterexample: a fuzzy-matched pair of the sales-side Matcher whose
compared fields all agree is reported in `matched` with an *empty* discrepancy list
— no informational identifier-mismatch annotation is attached, contradicting the
claim that every fuzzy pair carries one. -/
theorem c7_counterexample :
    (reconcileData [⟨"7A", "", "G9", "", 0, 0, 0, 0, 500⟩]
        [⟨"A7", "", "G9", "", 0, 0, 0, 0, 500⟩] 1).matched.map
      (fun c => (c.matchType, c.discrepancies)) = [("fuzzy", [])] := by
  norm_num +decide [reconcileData, reconcileCore, buildInvoiceMap, insertAssoc,
    processSales, sweepGSTR1, initialRState, lookupAssoc, findFuzzyMatch, fuzzyStep,
    recordSalesDuplicate, recordGstr1Duplicate, fuzzyConfidence, compareInvoices, monetaryFields, normalizeInvoiceNo, digitsOnly,
    normalizeDate, jsToUpper, jsTrim, List.filterMap_cons, List.filterMap_nil]

/-- C8, counterexample: invoices with an empty identifier are skipped by
`buildInvoiceMap` on *both* sides and are never swept into the missing buckets —
the result is completely empty, although each side contained one record.  They are
dropped, not reported missing. -/
theorem c8_counterexample :
    reconcileData [⟨"", "", "G1", "", 0, 0, 0, 0, 100⟩]
        [⟨"", "", "G2", "", 0, 0, 0, 0, 50⟩] 1 =
      { totalSalesInvoices := 1, totalGSTR1Invoices := 1, matched := [],
        mismatched := [], missingSalesInGSTR1 := [], missingGSTR1InSales := [],
        duplicates := [] } := by
  norm_num +decide [reconcileData, reconcileCore, buildInvoiceMap, insertAssoc,
    processSales, sweepGSTR1, initialRState, lookupAssoc, findFuzzyMatch, fuzzyStep,
    recordSalesDuplicate, recordGstr1Duplicate, fuzzyConfidence, compareInvoices, monetaryFields, normalizeInvoiceNo, digitsOnly,
    normalizeDate, jsToUpper, jsTrim, List.filterMap_cons, List.filterMap_nil]

/-! ## Structural lemmas about the matcher -/

/-- Invariant preservation along a left fold. -/
theorem foldl_induction {α β : Type} (f : β → α → β) (P : β → Prop) :
    ∀ (l : List α) (b : β), P b → (∀ b a, P b → P (f b a)) → P (l.foldl f b) := by
  intro l
  induction l with
  | nil => exact fun b hb _ => hb
  | cons a l ih => exact fun b hb hstep => ih (f b a) (hstep b a hb) hstep

/-- Records with a falsy `invoiceNo` are invisible to `buildInvoiceMap`. -/
theorem buildInvoiceMap_filter (l : List Invoice) :
    buildInvoiceMap l = buildInvoiceMap (l.filter (fun i => i.invoiceNo ≠ "")) := by
  unfold buildInvoiceMap
  suffices h : ∀ (l : List Invoice) (m : List (String × List Invoice)),
      l.foldl
        (fun m inv =>
          if inv.invoiceNo = "" then m
          else insertAssoc m (normalizeInvoiceNo inv.invoiceNo) inv) m =
      (l.filter (fun i => i.invoiceNo ≠ "")).foldl
        (fun m inv =>
          if inv.invoiceNo = "" then m
          else insertAssoc m (normalizeInvoiceNo inv.invoiceNo) inv) m by
    exact h l []
  intro l
  induction l with
  | nil => intro m; rfl
  | cons a l ih =>
    intro m
    by_cases h : a.invoiceNo = "" <;> simp [h, ih]

/-- The final sweep over the GSTR-1 map touches only `missingGSTR1InSales`. -/
theorem sweepGSTR1_fields (st : RState) (m : List (String × List Invoice)) :
    (sweepGSTR1 st m).matched = st.matched ∧
    (sweepGSTR1 st m).mismatched = st.mismatched ∧
    (sweepGSTR1 st m).missingSalesInGSTR1 = st.missingSalesInGSTR1 ∧
    (sweepGSTR1 st m).duplicates = st.duplicates ∧
    (sweepGSTR1 st m).processedGSTR1 = st.processedGSTR1 := by
  unfold sweepGSTR1
  induction m generalizing st with
  | nil => exact ⟨rfl, rfl, rfl, rfl, rfl⟩
  | cons e m ih =>
    simp only [List.foldl_cons]
    by_cases h : e.1 ∈ st.processedGSTR1
    · simpa [h] using ih st
    · simpa [h] using ih { st with missingGSTR1InSales := st.missingGSTR1InSales ++ e.2 }

/-! ### Claim C8 — empty identifiers -/

/-- C8 (amended): an invoice whose identifier is empty is excluded from the index
and thereby from the whole reconciliation — every outcome bucket of the result is
exactly what it would be had the record never been supplied.  In particular such a
record is *not* reported in a missing bucket (only the raw input counters see it),
and no error is raised (the function is total). -/
theorem c8_amended (salesData gstr1Data : List Invoice) (toleranceAmount : ℚ) :
    (reconcileData salesData gstr1Data toleranceAmount).matched =
      (reconcileData (salesData.filter (fun i => i.invoiceNo ≠ ""))
        (gstr1Data.filter (fun i => i.invoiceNo ≠ "")) toleranceAmount).matched ∧
    (reconcileData salesData gstr1Data toleranceAmount).mismatched =
      (reconcileData (salesData.filter (fun i => i.invoiceNo ≠ ""))
        (gstr1Data.filter (fun i => i.invoiceNo ≠ "")) toleranceAmount).mismatched ∧
    (reconcileData salesData gstr1Data toleranceAmount).missingSalesInGSTR1 =
      (reconcileData (salesData.filter (fun i => i.invoiceNo ≠ ""))
        (gstr1Data.filter (fun i => i.invoiceNo ≠ "")) toleranceAmount).missingSalesInGSTR1 ∧
    (reconcileData salesData gstr1Data toleranceAmount).missingGSTR1InSales =
      (reconcileData (salesData.filter (fun i => i.invoiceNo ≠ ""))
        (gstr1Data.filter (fun i => i.invoiceNo ≠ "")) toleranceAmount).missingGSTR1InSales ∧
    (reconcileData salesData gstr1Data toleranceAmount).duplicates =
      (reconcileData (salesData.filter (fun i => i.invoiceNo ≠ ""))
        (gstr1Data.filter (fun i => i.invoiceNo ≠ "")) toleranceAmount).duplicates := by
  simp only [reconcileData, ← buildInvoiceMap_filter]
  exact ⟨trivial, trivial, trivial, trivial, trivial⟩

/-! ### Matching-loop invariants (used by C7) -/

theorem recordSalesDuplicate_matched (st : RState) (e : String × List Invoice) :
    (recordSalesDuplicate st e).matched = st.matched := by
  unfold recordSalesDuplicate; split <;> rfl

theorem recordSalesDuplicate_mismatched (st : RState) (e : String × List Invoice) :
    (recordSalesDuplicate st e).mismatched = st.mismatched := by
  unfold recordSalesDuplicate; split <;> rfl

theorem recordSalesDuplicate_missingSales (st : RState) (e : String × List Invoice) :
    (recordSalesDuplicate st e).missingSalesInGSTR1 = st.missingSalesInGSTR1 := by
  unfold recordSalesDuplicate; split <;> rfl

theorem recordSalesDuplicate_missingGSTR1 (st : RState) (e : String × List Invoice) :
    (recordSalesDuplicate st e).missingGSTR1InSales = st.missingGSTR1InSales := by
  unfold recordSalesDuplicate; split <;> rfl

theorem recordSalesDuplicate_processed (st : RState) (e : String × List Invoice) :
    (recordSalesDuplicate st e).processedGSTR1 = st.processedGSTR1 := by
  unfold recordSalesDuplicate; split <;> rfl

theorem recordGstr1Duplicate_matched (st : RState) (b : List Invoice) :
    (recordGstr1Duplicate st b).matched = st.matched := by
  unfold recordGstr1Duplicate; split
  · rfl
  · split <;> rfl

theorem recordGstr1Duplicate_mismatched (st : RState) (b : List Invoice) :
    (recordGstr1Duplicate st b).mismatched = st.mismatched := by
  unfold recordGstr1Duplicate; split
  · rfl
  · split <;> rfl

theorem recordGstr1Duplicate_missingSales (st : RState) (b : List Invoice) :
    (recordGstr1Duplicate st b).missingSalesInGSTR1 = st.missingSalesInGSTR1 := by
  unfold recordGstr1Duplicate; split
  · rfl
  · split <;> rfl

theorem recordGstr1Duplicate_missingGSTR1 (st : RState) (b : List Invoice) :
    (recordGstr1Duplicate st b).missingGSTR1InSales = st.missingGSTR1InSales := by
  unfold recordGstr1Duplicate; split
  · rfl
  · split <;> rfl

theorem recordGstr1Duplicate_processed (st : RState) (b : List Invoice) :
    (recordGstr1Duplicate st b).processedGSTR1 = st.processedGSTR1 := by
  unfold recordGstr1Duplicate; split
  · rfl
  · split <;> rfl

theorem processSales_preserves (t : ℚ) (gmap : List (String × List Invoice))
    (st : RState) (e : String × List Invoice)
    (h1 : ∀ c ∈ st.matched, c.discrepancies = [])
    (h2 : ∀ c ∈ st.matched, c.matchType = "fuzzy" → c.matchConfidence.isSome = true)
    (h3 : ∀ c ∈ st.mismatched, c.matchType = "fuzzy" → c.matchConfidence.isSome = true) :
    (∀ c ∈ (processSales t gmap st e).matched, c.discrepancies = []) ∧
    (∀ c ∈ (processSales t gmap st e).matched,
      c.matchType = "fuzzy" → c.matchConfidence.isSome = true) ∧
    (∀ c ∈ (processSales t gmap st e).mismatched,
      c.matchType = "fuzzy" → c.matchConfidence.isSome = true) := by
  simp only [processSales]
  split
  · -- head? = none
    simp only [recordSalesDuplicate_matched, recordSalesDuplicate_mismatched]
    exact ⟨h1, h2, h3⟩
  · -- head? = some salesInv
    split
    · -- exact bucket empty → fuzzy path
      split
      · -- fuzzy = some (fInv, conf)
        split
        · -- discrepancies empty → matched push
          rename_i salesInv _ _ fInv conf _ hempty
          refine ⟨?_, ?_, ?_⟩ <;>
            simp only [recordSalesDuplicate_matched, recordSalesDuplicate_mismatched,
              List.mem_append, List.mem_singleton]
          · rintro c (hc | rfl)
            · exact h1 c hc
            · exact List.isEmpty_iff.mp hempty
          · rintro c (hc | rfl)
            · exact h2 c hc
            · intro _; rfl
          · exact fun c hc => h3 c hc
        · -- discrepancies nonempty → mismatched push
          rename_i salesInv _ _ fInv conf _ hempty
          refine ⟨?_, ?_, ?_⟩ <;>
            simp only [recordSalesDuplicate_matched, recordSalesDuplicate_mismatched,
              List.mem_append, List.mem_singleton]
          · exact fun c hc => h1 c hc
          · exact fun c hc => h2 c hc
          · rintro c (hc | rfl)
            · exact h3 c hc
            · intro _; rfl
      · -- fuzzy = none → missing push
        simp only [recordSalesDuplicate_matched, recordSalesDuplicate_mismatched]
        exact ⟨h1, h2, h3⟩
    · -- exact branch
      split
      · -- discrepancies empty → matched push
        rename_i salesInv _ gstr1Inv rest hempty
        refine ⟨?_, ?_, ?_⟩ <;>
          simp only [recordGstr1Duplicate_matched, recordGstr1Duplicate_mismatched,
            recordSalesDuplicate_matched, recordSalesDuplicate_mismatched,
            List.mem_append, List.mem_singleton]
        · rintro c (hc | rfl)
          · exact h1 c hc
          · exact List.isEmpty_iff.mp hempty
        · rintro c (hc | rfl)
          · exact h2 c hc
          · intro hft
            exact absurd hft (by simp [compareInvoices])
        · exact fun c hc => h3 c hc
      · -- mismatched push
        rename_i salesInv _ gstr1Inv rest hempty
        refine ⟨?_, ?_, ?_⟩ <;>
          simp only [recordGstr1Duplicate_matched, recordGstr1Duplicate_mismatched,
            recordSalesDuplicate_matched, recordSalesDuplicate_mismatched,
            List.mem_append, List.mem_singleton]
        · exact fun c hc => h1 c hc
        · exact fun c hc => h2 c hc
        · rintro c (hc | rfl)
          · exact h3 c hc
          · intro hft
            exact absurd hft (by simp [compareInvoices])

/-! ### Claim C7 — fuzzy-pair annotations -/

/-- The sales-side invariants lifted to the whole run. -/
theorem reconcileData_fuzzy_invariants (salesData gstr1Data : List Invoice) (t : ℚ) :
    (∀ c ∈ (reconcileData salesData gstr1Data t).matched, c.discrepancies = []) ∧
    (∀ c ∈ (reconcileData salesData gstr1Data t).matched,
      c.matchType = "fuzzy" → c.matchConfidence.isSome = true) ∧
    (∀ c ∈ (reconcileData salesData gstr1Data t).mismatched,
      c.matchType = "fuzzy" → c.matchConfidence.isSome = true) := by
  have h := foldl_induction (processSales t (buildInvoiceMap gstr1Data))
    (fun st => (∀ c ∈ st.matched, c.discrepancies = []) ∧
      (∀ c ∈ st.matched, c.matchType = "fuzzy" → c.matchConfidence.isSome = true) ∧
      (∀ c ∈ st.mismatched, c.matchType = "fuzzy" → c.matchConfidence.isSome = true))
    (buildInvoiceMap salesData) initialRState
    ⟨by simp [initialRState], by simp [initialRState], by simp [initialRState]⟩
    (fun st e hst => processSales_preserves t _ st e hst.1 hst.2.1 hst.2.2)
  obtain ⟨hm, hmm, -, -, -⟩ := sweepGSTR1_fields
    ((buildInvoiceMap salesData).foldl (processSales t (buildInvoiceMap gstr1Data))
      initialRState) (buildInvoiceMap gstr1Data)
  simp only [reconcileData, reconcileCore]
  rw [hm, hmm]
  exact h

theorem processPurchase_matched_empty (t : ℚ)
    (gmap : List (String × List (PInvoice × ℕ))) (gd : List PInvoice)
    (st : PState) (p : PInvoice)
    (h : ∀ e ∈ st.matched, e.discrepancies = []) :
    ∀ e ∈ (processPurchase t gmap gd st p).matched, e.discrepancies = [] := by
  simp only [processPurchase]
  split
  · split
    · rename_i cand _ hempty
      simp only [List.mem_append, List.mem_singleton]
      rintro e (he | rfl)
      · exact h e he
      · rfl
    · exact fun e he => h e he
  · split
    · exact fun e he => h e he
    · exact fun e he => h e he

theorem reconcilePurchase_matched_empty (purchaseData gstr2Data : List PInvoice)
    (t : ℚ) :
    ∀ e ∈ (reconcilePurchaseWith2A2B purchaseData gstr2Data t).matched,
      e.discrepancies = [] := by
  simp only [reconcilePurchaseWith2A2B]
  exact foldl_induction (processPurchase t (buildGstr2Map gstr2Data) gstr2Data)
    (fun st => ∀ e ∈ st.matched, e.discrepancies = [])
    purchaseData initialPState (by simp [initialPState])
    (fun st p hst => processPurchase_matched_empty t _ _ st p hst)

theorem processPurchase_fuzzy (t : ℚ) (gmap : List (String × List (PInvoice × ℕ)))
    (gd : List PInvoice) (st : PState) (p g : PInvoice) (i : ℕ)
    (hexact : ((lookupAssoc gmap
        (compositeKey (purchaseGSTIN p) (normalizeInvNo p.invoiceNo))).getD []).find?
        (fun ci => decide (ci.2 ∉ st.gstr2Used)) = none)
    (hfuzzy : findFuzzyMatch2A p gd st.gstr2Used = some (g, i)) :
    (processPurchase t gmap gd st p).mismatched =
      st.mismatched ++
        [⟨p, g, comparePurchaseInvoice p g t ++ [invoiceNoMismatch]⟩] := by
  simp only [processPurchase, hexact, hfuzzy]
/-- C7 (amended): the two engines annotate fuzzy pairs asymmetrically.  The
sales-side Matcher attaches the confidence score to every fuzzy pair but never an
identifier-mismatch discrepancy — its matched bucket only ever contains pairs with
an empty discrepancy list, so a fuzzy pair whose compared fields all agree *is*
reported as a discrepancy-free match.  The purchase-side twin does the opposite: a
fuzzy pair always lands in `mismatched` with the informational `invoiceNo`
annotation appended, but no confidence score is carried (its result records have no
confidence field at all). -/
theorem c7_amended :
    (∀ (salesData gstr1Data : List Invoice) (t : ℚ),
      ∀ c ∈ (reconcileData salesData gstr1Data t).matched, c.discrepancies = []) ∧
    (∀ (salesData gstr1Data : List Invoice) (t : ℚ),
      ∀ c ∈ (reconcileData salesData gstr1Data t).matched ++
          (reconcileData salesData gstr1Data t).mismatched,
        c.matchType = "fuzzy" → c.matchConfidence.isSome = true) ∧
    (∀ (purchaseData gstr2Data : List PInvoice) (t : ℚ),
      ∀ e ∈ (reconcilePurchaseWith2A2B purchaseData gstr2Data t).matched,
        e.discrepancies = []) ∧
    (∀ (t : ℚ) (gmap : List (String × List (PInvoice × ℕ))) (gd : List PInvoice)
        (st : PState) (p g : PInvoice) (i : ℕ),
      ((lookupAssoc gmap
          (compositeKey (purchaseGSTIN p) (normalizeInvNo p.invoiceNo))).getD []).find?
          (fun ci => decide (ci.2 ∉ st.gstr2Used)) = none →
      findFuzzyMatch2A p gd st.gstr2Used = some (g, i) →
      (processPurchase t gmap gd st p).mismatched =
        st.mismatched ++
          [⟨p, g, comparePurchaseInvoice p g t ++ [invoiceNoMismatch]⟩]) := by
  refine ⟨fun sd gd t => (reconcileData_fuzzy_invariants sd gd t).1,
    fun sd gd t c hc hf => ?_,
    reconcilePurchase_matched_empty,
    processPurchase_fuzzy⟩
  rcases List.mem_append.mp hc with h | h
  · exact (reconcileData_fuzzy_invariants sd gd t).2.1 c h hf
  · exact (reconcileData_fuzzy_invariants sd gd t).2.2 c h hf

/-- C7, witness: a concrete discrepancy-free fuzzy pair produced into the sales
matched bucket (with its confidence, without an annotation), and a concrete
purchase-side fuzzy step producing the annotated mismatched entry. -/
theorem c7_amended_witness :
    (⟨"8B", ⟨"8B", "", "G2", "", 0, 0, 0, 0, 300⟩, ⟨"B8", "", "G2", "", 0, 0, 0, 0, 300⟩,
        [], 0, "fuzzy", some (9/10)⟩ : Comparison).discrepancies = [] ∧
    (processPurchase 1 (buildGstr2Map [⟨"Z9", "G1", "", 0, 0, 0, 0, 100⟩])
        [⟨"Z9", "G1", "", 0, 0, 0, 0, 100⟩] initialPState
        ⟨"P1", "", "G1", 0, 0, 0, 0, 100⟩).mismatched =
      initialPState.mismatched ++
        [⟨⟨"P1", "", "G1", 0, 0, 0, 0, 100⟩, ⟨"Z9", "G1", "", 0, 0, 0, 0, 100⟩,
          comparePurchaseInvoice ⟨"P1", "", "G1", 0, 0, 0, 0, 100⟩
            ⟨"Z9", "G1", "", 0, 0, 0, 0, 100⟩ 1 ++ [invoiceNoMismatch]⟩] := by
  constructor
  · exact c7_amended.1 [⟨"8B", "", "G2", "", 0, 0, 0, 0, 300⟩]
      [⟨"B8", "", "G2", "", 0, 0, 0, 0, 300⟩] 1 _
      (by norm_num +decide [reconcileData, reconcileCore, buildInvoiceMap, insertAssoc,
        processSales, sweepGSTR1, initialRState, lookupAssoc, findFuzzyMatch, fuzzyStep,
        recordSalesDuplicate, recordGstr1Duplicate, fuzzyConfidence, compareInvoices,
        monetaryFields, normalizeInvoiceNo, digitsOnly, normalizeDate, jsToUpper, jsTrim,
        List.filterMap_cons, List.filterMap_nil, round2])
  · exact c7_amended.2.2.2 1 _ _ initialPState _ _ 0 (by decide)
      (by norm_num +decide [findFuzzyMatch2A, fuzzyScan2A, purchaseGSTIN, jsToUpper,
        initialPState])

/-! ### Claim C9 — tolerance monotonicity -/
/-- Paired invariant preservation along two folds over the same list. -/
theorem foldl_sim {α β γ : Type} (f : β → α → β) (g : γ → α → γ) (R : β → γ → Prop) :
    ∀ (l : List α) (b : β) (c : γ), R b c → (∀ b c a, R b c → R (f b a) (g c a)) →
      R (l.foldl f b) (l.foldl g c) := by
  intro l
  induction l with
  | nil => exact fun b c hbc _ => hbc
  | cons a l ih => exact fun b c hbc hstep => ih (f b a) (g c a) (hstep b c a hbc) hstep

/-- Raising the tolerance can only erase discrepancies: a pair that compares clean
at tolerance `t1` also compares clean at any `t2 ≥ t1`. -/
theorem compareInvoices_discrepancies_mono (s g : Invoice) {t1 t2 : ℚ} (h : t1 ≤ t2)
    (hempty : (compareInvoices s g t1).discrepancies = []) :
    (compareInvoices s g t2).discrepancies = [] := by
  simp only [compareInvoices, List.append_eq_nil] at hempty ⊢
  obtain ⟨⟨hfields, hgstin⟩, hdate⟩ := hempty
  refine ⟨⟨?_, hgstin⟩, hdate⟩
  rw [List.filterMap_eq_nil_iff] at hfields ⊢
  intro f hf
  have hnone := hfields f hf
  by_cases hlt : t1 < |f.2 s - f.2 g|
  · rw [if_pos hlt] at hnone
    exact absurd hnone (by simp)
  · rw [if_neg (fun hlt2 => hlt (lt_of_le_of_lt h hlt2))]
/-- One step of the matching loop, run at two tolerances `t1 ≤ t2` from states that
agree on the consumed set and pair counts: the branch taken is the same (pairing
never depends on the tolerance), the consumed sets stay equal, the total number of
pairs stays equal, and the matched count at the larger tolerance stays ahead. -/
theorem processSales_tolerance_sim {t1 t2 : ℚ} (h12 : t1 ≤ t2)
    (gmap : List (String × List Invoice)) (st1 st2 : RState)
    (e : String × List Invoice)
    (hp : st1.processedGSTR1 = st2.processedGSTR1)
    (hcount : st1.matched.length + st1.mismatched.length =
      st2.matched.length + st2.mismatched.length)
    (hmono : st1.matched.length ≤ st2.matched.length) :
    (processSales t1 gmap st1 e).processedGSTR1 =
      (processSales t2 gmap st2 e).processedGSTR1 ∧
    (processSales t1 gmap st1 e).matched.length +
        (processSales t1 gmap st1 e).mismatched.length =
      (processSales t2 gmap st2 e).matched.length +
        (processSales t2 gmap st2 e).mismatched.length ∧
    (processSales t1 gmap st1 e).matched.length ≤
      (processSales t2 gmap st2 e).matched.length := by
  have hpd : (recordSalesDuplicate st2 e).processedGSTR1 =
      (recordSalesDuplicate st1 e).processedGSTR1 := by
    rw [recordSalesDuplicate_processed, recordSalesDuplicate_processed, hp]
  simp only [processSales, hpd]
  split
  · -- head? = none
    simp only [recordSalesDuplicate_matched, recordSalesDuplicate_mismatched,
      recordSalesDuplicate_processed, hp]
    refine ⟨?_, ?_, ?_⟩ <;> first | trivial | omega
  · -- head? = some salesInv
    rename_i salesInv hhead
    split
    · -- fuzzy path
      split
      · -- fuzzy = some (fInv, conf)
        rename_i fInv conf hfuzzy
        by_cases h1 : (compareInvoices salesInv fInv t1).discrepancies = []
        · have h2 : (compareInvoices salesInv fInv t2).discrepancies = [] :=
            compareInvoices_discrepancies_mono salesInv fInv h12 h1
          simp only [h1, h2, List.isEmpty_nil, if_true, List.isEmpty_iff]
          simp only [recordSalesDuplicate_matched, recordSalesDuplicate_mismatched,
            recordSalesDuplicate_processed, hp, List.length_append, List.length_singleton]
          refine ⟨?_, ?_, ?_⟩ <;> first | trivial | omega
        · by_cases h2 : (compareInvoices salesInv fInv t2).discrepancies = []
          · simp only [List.isEmpty_iff, h1, h2, if_false, if_true]
            simp only [recordSalesDuplicate_matched, recordSalesDuplicate_mismatched,
              recordSalesDuplicate_processed, hp, List.length_append, List.length_singleton]
            refine ⟨?_, ?_, ?_⟩ <;> first | trivial | omega
          · simp only [List.isEmpty_iff, h1, h2, if_false]
            simp only [recordSalesDuplicate_matched, recordSalesDuplicate_mismatched,
              recordSalesDuplicate_processed, hp, List.length_append, List.length_singleton]
            refine ⟨?_, ?_, ?_⟩ <;> first | trivial | omega
      · -- fuzzy = none
        simp only [recordSalesDuplicate_matched, recordSalesDuplicate_mismatched,
          recordSalesDuplicate_processed, hp]
        refine ⟨?_, ?_, ?_⟩ <;> first | trivial | omega
    · -- exact path
      rename_i gstr1Inv rest hbucket
      by_cases h1 : (compareInvoices salesInv gstr1Inv t1).discrepancies = []
      · have h2 : (compareInvoices salesInv gstr1Inv t2).discrepancies = [] :=
          compareInvoices_discrepancies_mono salesInv gstr1Inv h12 h1
        simp only [List.isEmpty_iff, h1, h2, if_true]
        simp only [recordGstr1Duplicate_matched, recordGstr1Duplicate_mismatched,
          recordGstr1Duplicate_processed, recordSalesDuplicate_matched,
          recordSalesDuplicate_mismatched, recordSalesDuplicate_processed, hp,
          List.length_append, List.length_singleton]
        refine ⟨?_, ?_, ?_⟩ <;> first | trivial | omega
      · by_cases h2 : (compareInvoices salesInv gstr1Inv t2).discrepancies = []
        · simp only [List.isEmpty_iff, h1, h2, if_false, if_true]
          simp only [recordGstr1Duplicate_matched, recordGstr1Duplicate_mismatched,
            recordGstr1Duplicate_processed, recordSalesDuplicate_matched,
            recordSalesDuplicate_mismatched, recordSalesDuplicate_processed, hp,
            List.length_append, List.length_singleton]
          refine ⟨?_, ?_, ?_⟩ <;> first | trivial | omega
        · simp only [List.isEmpty_iff, h1, h2, if_false]
          simp only [recordGstr1Duplicate_matched, recordGstr1Duplicate_mismatched,
            recordGstr1Duplicate_processed, recordSalesDuplicate_matched,
            recordSalesDuplicate_mismatched, recordSalesDuplicate_processed, hp,
            List.length_append, List.length_singleton]
          refine ⟨?_, ?_, ?_⟩ <;> first | trivial | omega
/-- C9: for fixed inputs the matched count is monotone and the mismatched count is
antitone in the tolerance: the set of formed pairs does not depend on the tolerance
(exact lookup and the fuzzy scorer never read it), and raising the tolerance can
only turn a mismatched pair into a matched one. -/
theorem c9_tolerance_monotonicity (salesData gstr1Data : List Invoice) {t1 t2 : ℚ}
    (h : t1 ≤ t2) :
    (reconcileData salesData gstr1Data t1).matched.length ≤
      (reconcileData salesData gstr1Data t2).matched.length ∧
    (reconcileData salesData gstr1Data t2).mismatched.length ≤
      (reconcileData salesData gstr1Data t1).mismatched.length := by
  have hsim := foldl_sim (processSales t1 (buildInvoiceMap gstr1Data))
    (processSales t2 (buildInvoiceMap gstr1Data))
    (fun s1 s2 => s1.processedGSTR1 = s2.processedGSTR1 ∧
      s1.matched.length + s1.mismatched.length =
        s2.matched.length + s2.mismatched.length ∧
      s1.matched.length ≤ s2.matched.length)
    (buildInvoiceMap salesData) initialRState initialRState
    ⟨rfl, rfl, le_refl _⟩
    (fun s1 s2 e hr => processSales_tolerance_sim h _ s1 s2 e hr.1 hr.2.1 hr.2.2)
  obtain ⟨hm1, hmm1, -, -, -⟩ := sweepGSTR1_fields
    ((buildInvoiceMap salesData).foldl (processSales t1 (buildInvoiceMap gstr1Data))
      initialRState) (buildInvoiceMap gstr1Data)
  obtain ⟨hm2, hmm2, -, -, -⟩ := sweepGSTR1_fields
    ((buildInvoiceMap salesData).foldl (processSales t2 (buildInvoiceMap gstr1Data))
      initialRState) (buildInvoiceMap gstr1Data)
  simp only [reconcileData, reconcileCore]
  rw [hm1, hmm1, hm2, hmm2]
  have h1 := hsim.2.1
  have h2 := hsim.2.2
  exact ⟨h2, by omega⟩

/-- C9, witness: at a concrete pair with a total-amount gap of 5, tolerance 1 yields
a mismatch and tolerance 10 a match; the counts move in the claimed directions. -/
theorem c9_tolerance_monotonicity_witness :
    (reconcileData [⟨"K1", "", "G1", "", 0, 0, 0, 0, 100⟩]
        [⟨"K1", "", "G1", "", 0, 0, 0, 0, 105⟩] 1).matched.length ≤
      (reconcileData [⟨"K1", "", "G1", "", 0, 0, 0, 0, 100⟩]
        [⟨"K1", "", "G1", "", 0, 0, 0, 0, 105⟩] 10).matched.length ∧
    (reconcileData [⟨"K1", "", "G1", "", 0, 0, 0, 0, 100⟩]
        [⟨"K1", "", "G1", "", 0, 0, 0, 0, 105⟩] 10).mismatched.length ≤
      (reconcileData [⟨"K1", "", "G1", "", 0, 0, 0, 0, 100⟩]
        [⟨"K1", "", "G1", "", 0, 0, 0, 0, 105⟩] 1).mismatched.length :=
  c9_tolerance_monotonicity [⟨"K1", "", "G1", "", 0, 0, 0, 0, 100⟩]
    [⟨"K1", "", "G1", "", 0, 0, 0, 0, 105⟩] (by norm_num)

/-! ### Claim C1 — completeness -/
/-- The normalized matching key of an invoice. -/
def normKey (i : Invoice) : String := normalizeInvoiceNo i.invoiceNo

/-- The shape `buildInvoiceMap` takes when every record has a distinct non-empty
key: one singleton bucket per record, in input order. -/
def singletonMap (l : List Invoice) : List (String × List Invoice) :=
  l.map (fun i => (normKey i, [i]))

/-- Invariant preservation along a left fold, remembering that each step's element
comes from the folded list. -/
theorem foldl_induction_mem {α β : Type} (f : β → α → β) (P : β → Prop) :
    ∀ (l : List α) (b : β), P b → (∀ b a, a ∈ l → P b → P (f b a)) →
      P (l.foldl f b) := by
  intro l
  induction l with
  | nil => exact fun b hb _ => hb
  | cons x l ih =>
    intro b hb hstep
    exact ih (f b x) (hstep b x (List.mem_cons_self x l) hb)
      (fun b a ha hb₁ => hstep b a (List.mem_cons_of_mem x ha) hb₁)

/-- Inserting under a fresh key appends a new singleton bucket at the end. -/
theorem insertAssoc_fresh {α : Type} (m : List (String × List α)) (k : String) (a : α)
    (h : k ∉ m.map Prod.fst) : insertAssoc m k a = m ++ [(k, [a])] := by
  induction m with
  | nil => rfl
  | cons e m ih =>
    simp only [List.map_cons, List.mem_cons, not_or] at h
    simp only [insertAssoc, if_neg (Ne.symm h.1), List.cons_append, ih h.2]

/-- With pairwise-distinct non-empty keys, `buildInvoiceMap` is the singleton-bucket
map in input order. -/
theorem buildInvoiceMap_singleton (l : List Invoice)
    (h1 : ∀ i ∈ l, i.invoiceNo ≠ "") (h2 : (l.map normKey).Nodup) :
    buildInvoiceMap l = singletonMap l := by
  unfold buildInvoiceMap singletonMap
  suffices h : ∀ (l : List Invoice) (m : List (String × List Invoice)),
      (∀ i ∈ l, i.invoiceNo ≠ "") → (l.map normKey).Nodup →
      (∀ i ∈ l, normKey i ∉ m.map Prod.fst) →
      l.foldl
        (fun m inv =>
          if inv.invoiceNo = "" then m
          else insertAssoc m (normalizeInvoiceNo inv.invoiceNo) inv) m =
      m ++ l.map (fun i => (normKey i, [i])) by
    simpa using h l [] h1 h2 (by simp)
  intro l
  induction l with
  | nil => intro m _ _ _; simp
  | cons a l ih =>
    intro m ha hnd hfresh
    simp only [List.map_cons, List.nodup_cons] at hnd
    simp only [List.foldl_cons, if_neg (ha a (List.mem_cons_self a l)),
      insertAssoc_fresh m (normalizeInvoiceNo a.invoiceNo) a
        (hfresh a (List.mem_cons_self a l))]
    have hres := ih (m ++ [(normKey a, [a])])
      (fun i hi => ha i (List.mem_cons_of_mem a hi)) hnd.2 ?_
    · simp only [normKey] at hres ⊢
      rw [hres]
      simp
    · intro i hi
      simp only [List.map_append, List.mem_append]
      rintro (hm | hk)
      · exact hfresh i (List.mem_cons_of_mem a hi) hm
      · simp only [List.map_cons, List.map_nil, List.mem_singleton] at hk
        exact hnd.1 (hk ▸ List.mem_map_of_mem normKey hi)

/-- Looking up an absent key in the singleton map fails. -/
theorem lookupAssoc_singleton_none (l : List Invoice) (key : String) :
    lookupAssoc (singletonMap l) key = none ↔ key ∉ l.map normKey := by
  induction l with
  | nil => simp [singletonMap, lookupAssoc]
  | cons a l ih =>
    simp only [singletonMap, List.map_cons, lookupAssoc, List.mem_cons]
    by_cases h : normKey a = key
    · simp [h]
    · simpa [h, Ne.symm h] using ih

/-- A successful lookup in the singleton map returns the singleton bucket of a
member with that key. -/
theorem lookupAssoc_singleton_some (l : List Invoice) (key : String)
    (b : List Invoice) (h : lookupAssoc (singletonMap l) key = some b) :
    ∃ r ∈ l, key = normKey r ∧ b = [r] := by
  induction l with
  | nil => simp [singletonMap, lookupAssoc] at h
  | cons a l ih =>
    simp only [singletonMap, List.map_cons, lookupAssoc] at h
    by_cases hk : normKey a = key
    · rw [if_pos hk] at h
      exact ⟨a, List.mem_cons_self a l, hk.symm, (Option.some_inj.mp h).symm⟩
    · rw [if_neg hk] at h
      obtain ⟨r, hr, hkey, hb⟩ := ih h
      exact ⟨r, List.mem_cons_of_mem a hr, hkey, hb⟩

/-- What a successful fuzzy match tells us: the returned invoice heads an
unconsumed bucket of the map, and its score, at least 0.7, is the candidate score
computed from that bucket's key. -/
theorem findFuzzyMatch_some (salesInv : Invoice)
    (m : List (String × List Invoice)) (proc : List String) (inv : Invoice) (c : ℚ)
    (h : findFuzzyMatch salesInv m proc = some (inv, c)) :
    ∃ e ∈ m, e.1 ∉ proc ∧ e.2.head? = some inv ∧
      c = fuzzyConfidence salesInv inv e.1 ∧ 7/10 ≤ c := by
  have H := foldl_induction_mem (fuzzyStep salesInv proc)
    (fun best => best = none ∨ ∃ p, best = some p ∧
      ∃ e ∈ m, e.1 ∉ proc ∧ e.2.head? = some p.1 ∧
        p.2 = fuzzyConfidence salesInv p.1 e.1 ∧ 7/10 ≤ p.2)
    m none (Or.inl rfl) ?_
  · unfold findFuzzyMatch at h
    rw [h] at H
    rcases H with H | ⟨p, hp, e, he, hproc, hhead, hconf, hge⟩
    · exact absurd H (by simp)
    · obtain rfl : p = (inv, c) := Option.some_inj.mp hp.symm
      exact ⟨e, he, hproc, hhead, hconf, hge⟩
  · intro best e he hbest
    unfold fuzzyStep
    by_cases hproc : e.1 ∈ proc
    · simpa [hproc] using hbest
    · simp only [if_neg hproc]
      match hhead : e.2.head? with
      | none => simpa using hbest
      | some gstr1Inv =>
        simp only []
        by_cases hcond : ((best.map Prod.snd).getD 0 <
            fuzzyConfidence salesInv gstr1Inv e.1 ∧
            7/10 ≤ fuzzyConfidence salesInv gstr1Inv e.1)
        · rw [if_pos hcond]
          exact Or.inr ⟨(gstr1Inv, fuzzyConfidence salesInv gstr1Inv e.1), rfl,
            e, he, hproc, hhead, rfl, hcond.2⟩
        · rw [if_neg hcond]
          exact hbest
/-- For duplicate-free lists, filtering a list by membership in a sublist of it
recovers exactly that sublist's length. -/
theorem length_filter_mem {l p : List String} (hl : l.Nodup) (hp : p.Nodup)
    (hsub : ∀ k ∈ p, k ∈ l) :
    (l.filter (fun k => decide (k ∈ p))).length = p.length := by
  have hfin : (l.filter (fun k => decide (k ∈ p))).toFinset = p.toFinset := by
    ext x
    simp only [List.toFinset_filter, Finset.mem_filter, List.mem_toFinset,
      decide_eq_true_eq]
    exact ⟨fun h => h.2, fun h => ⟨hsub x h, h⟩⟩
  have h1 := List.toFinset_card_of_nodup (hl.filter (fun k => decide (k ∈ p)))
  have h2 := List.toFinset_card_of_nodup hp
  rw [← h1, ← h2, hfin]

/-- Counting the keys *not* consumed: total minus consumed, for duplicate-free key
and consumed lists with the consumed keys among the keys. -/
theorem length_filter_not_mem {l p : List String} (hl : l.Nodup) (hp : p.Nodup)
    (hsub : ∀ k ∈ p, k ∈ l) :
    (l.filter (fun k => decide (k ∉ p))).length = l.length - p.length ∧
      p.length ≤ l.length := by
  have hsplit := List.length_eq_length_filter_add (l := l) (fun k => decide (k ∈ p))
  have hmem := length_filter_mem hl hp hsub
  have hfun : (fun k => !(fun k => decide (k ∈ p)) k) = (fun k => decide (k ∉ p)) := by
    funext k
    simp [decide_not]
  rw [hfun] at hsplit
  omega

/-- The sweep over the singleton GSTR-1 map appends one missing record per
unconsumed key. -/
theorem sweepGSTR1_missing_count (gstr1Data : List Invoice) :
    ∀ st : RState,
      (sweepGSTR1 st (singletonMap gstr1Data)).missingGSTR1InSales.length =
        st.missingGSTR1InSales.length +
          ((gstr1Data.map normKey).filter
            (fun k => decide (k ∉ st.processedGSTR1))).length := by
  induction gstr1Data with
  | nil => intro st; simp [sweepGSTR1, singletonMap]
  | cons r l ih =>
    intro st
    simp only [singletonMap, List.map_cons, sweepGSTR1, List.foldl_cons] at ih ⊢
    rw [List.filter_cons]
    by_cases h : normKey r ∈ st.processedGSTR1
    · rw [if_pos h, if_neg (by simpa using h)]
      exact ih st
    · rw [if_neg h, if_pos (by simpa using h)]
      have h2 := ih { st with missingGSTR1InSales := st.missingGSTR1InSales ++ [r] }
      simp only [List.length_append, List.length_singleton, List.length_cons, List.length_nil] at h2 ⊢
      rw [h2]
      omega
/-- A singleton sales bucket triggers no duplicate report. -/
theorem recordSalesDuplicate_singleton (st : RState) (k : String) (i : Invoice) :
    recordSalesDuplicate st (k, [i]) = st := by
  unfold recordSalesDuplicate
  norm_num

/-- A singleton GSTR-1 bucket triggers no duplicate report. -/
theorem recordGstr1Duplicate_singleton (st : RState) (g : Invoice) :
    recordGstr1Duplicate st [g] = st := by
  unfold recordGstr1Duplicate
  norm_num

/-- Members of the singleton map are the singleton buckets of the list. -/
theorem mem_singletonMap {l : List Invoice} {e : String × List Invoice}
    (h : e ∈ singletonMap l) : ∃ r ∈ l, e = (normKey r, [r]) := by
  unfold singletonMap at h
  obtain ⟨r, hr, he⟩ := List.mem_map.mp h
  exact ⟨r, hr, he.symm⟩

/-- An empty effective bucket in the singleton map means the key is absent. -/
theorem singletonMap_lookup_nil {l : List Invoice} {key : String}
    (h : (lookupAssoc (singletonMap l) key).getD [] = []) : key ∉ l.map normKey := by
  match hlk : lookupAssoc (singletonMap l) key with
  | none => exact (lookupAssoc_singleton_none l key).mp hlk
  | some b =>
    obtain ⟨r, hr, hkey, hb⟩ := lookupAssoc_singleton_some l key b hlk
    rw [hlk] at h
    simp only [Option.getD_some] at h
    rw [h] at hb
    exact absurd hb (by simp)

/-- A non-empty effective bucket in the singleton map is the singleton bucket of a
member carrying that very key. -/
theorem singletonMap_lookup_cons {l : List Invoice} {key : String} {g : Invoice}
    {rest : List Invoice}
    (h : (lookupAssoc (singletonMap l) key).getD [] = g :: rest) :
    g ∈ l ∧ key = normKey g ∧ rest = [] := by
  match hlk : lookupAssoc (singletonMap l) key with
  | none => rw [hlk] at h; exact absurd h (by simp)
  | some b =>
    obtain ⟨r, hr, hkey, hb⟩ := lookupAssoc_singleton_some l key b hlk
    rw [hlk] at h
    simp only [Option.getD_some] at h
    rw [h] at hb
    obtain ⟨rfl, rfl⟩ : g = r ∧ rest = [] := by
      cases hb
      exact ⟨rfl, rfl⟩
    exact ⟨hr, hkey, rfl⟩

/-- Appending a fresh element keeps a list duplicate-free. -/
theorem nodup_append_singleton {l : List String} {k : String}
    (h1 : l.Nodup) (h2 : k ∉ l) : (l ++ [k]).Nodup := by
  rw [List.nodup_append]
  exact ⟨h1, List.nodup_singleton k, fun x hx hk => h2 ((List.mem_singleton.mp hk) ▸ hx)⟩

/-- One step of the matching loop over singleton buckets, from a state satisfying
the consumed-set invariants: the invariants are preserved, exactly one outcome is
recorded, the missing-in-sales bucket is untouched, and the consumed set either
stays put (missing) or grows by the entry's own key (exact) or by the key of a
right-side invoice that collides with no left key (fuzzy, by the no-collision
hypothesis). -/
theorem c1_step (t : ℚ) (salesData gstr1Data : List Invoice)
    (H3 : ∀ l ∈ salesData, normKey l ∉ gstr1Data.map normKey →
      ∀ r ∈ gstr1Data, normKey r ∈ salesData.map normKey →
        fuzzyConfidence l r (normKey r) < 7/10)
    (a : Invoice) (ha : a ∈ salesData) (st : RState)
    (hP1 : st.processedGSTR1.Nodup)
    (hP2 : ∀ k ∈ st.processedGSTR1, k ∈ gstr1Data.map normKey)
    (hP3 : st.processedGSTR1.length = st.matched.length + st.mismatched.length)
    (hPk : normKey a ∉ st.processedGSTR1) :
    (processSales t (singletonMap gstr1Data) st (normKey a, [a])).processedGSTR1.Nodup ∧
    (∀ k ∈ (processSales t (singletonMap gstr1Data) st (normKey a, [a])).processedGSTR1,
      k ∈ gstr1Data.map normKey) ∧
    (processSales t (singletonMap gstr1Data) st (normKey a, [a])).processedGSTR1.length =
      (processSales t (singletonMap gstr1Data) st (normKey a, [a])).matched.length +
        (processSales t (singletonMap gstr1Data) st (normKey a, [a])).mismatched.length ∧
    (processSales t (singletonMap gstr1Data) st (normKey a, [a])).matched.length +
        (processSales t (singletonMap gstr1Data) st (normKey a, [a])).mismatched.length +
        (processSales t (singletonMap gstr1Data) st (normKey a, [a])).missingSalesInGSTR1.length =
      st.matched.length + st.mismatched.length + st.missingSalesInGSTR1.length + 1 ∧
    (processSales t (singletonMap gstr1Data) st (normKey a, [a])).missingGSTR1InSales =
      st.missingGSTR1InSales ∧
    ((processSales t (singletonMap gstr1Data) st (normKey a, [a])).processedGSTR1 =
        st.processedGSTR1 ∨
      (processSales t (singletonMap gstr1Data) st (normKey a, [a])).processedGSTR1 =
        st.processedGSTR1 ++ [normKey a] ∨
      ∃ r, r ∈ gstr1Data ∧
        (processSales t (singletonMap gstr1Data) st (normKey a, [a])).processedGSTR1 =
          st.processedGSTR1 ++ [normKey r] ∧
        normKey r ∉ salesData.map normKey) := by
  simp only [processSales, recordSalesDuplicate_singleton, List.head?_cons]
  split
  · -- fuzzy path: effective bucket empty
    rename_i hbucket
    have hmiss : normKey a ∉ gstr1Data.map normKey := singletonMap_lookup_nil hbucket
    split
    · -- fuzzy = some (fInv, conf)
      rename_i fInv conf hfuzzy
      obtain ⟨e, he, hproc, hhead, hconf, hge⟩ :=
        findFuzzyMatch_some a (singletonMap gstr1Data) st.processedGSTR1 fInv conf hfuzzy
      obtain ⟨r, hr, rfl⟩ := mem_singletonMap he
      obtain rfl : r = fInv := by simpa using hhead
      simp only at hproc hconf
      have hnotin : normKey r ∉ salesData.map normKey := by
        intro hcol
        rw [hconf] at hge
        exact absurd (lt_of_le_of_lt hge (H3 a ha hmiss r hr hcol)) (lt_irrefl _)
      have hrightkey : normKey r ∈ gstr1Data.map normKey :=
        List.mem_map_of_mem normKey hr
      split <;>
        (refine ⟨nodup_append_singleton hP1 hproc, ?_, ?_, ?_, rfl,
          Or.inr (Or.inr ⟨r, hr, rfl, hnotin⟩)⟩
         · intro k hk
           rcases List.mem_append.mp hk with hk | hk
           · exact hP2 k hk
           · exact (List.mem_singleton.mp hk) ▸ hrightkey
         · simp only [List.length_append, List.length_singleton]
           omega
         · simp only [List.length_append, List.length_singleton]
           omega)
    · -- fuzzy = none: missing
      exact ⟨hP1, hP2, hP3,
        by dsimp only; simp only [List.length_append, List.length_singleton]; omega,
        rfl, Or.inl rfl⟩
  · -- exact branch
    rename_i gstr1Inv rest hbucket
    obtain ⟨hg, hkey, rfl⟩ := singletonMap_lookup_cons hbucket
    simp only [recordGstr1Duplicate_singleton]
    have hrightkey : normKey a ∈ gstr1Data.map normKey := by
      rw [hkey]
      exact List.mem_map_of_mem normKey hg
    split <;>
      (refine ⟨nodup_append_singleton hP1 hPk, ?_, ?_, ?_, rfl, Or.inr (Or.inl rfl)⟩
       · intro k hk
         rcases List.mem_append.mp hk with hk | hk
         · exact hP2 k hk
         · exact (List.mem_singleton.mp hk) ▸ hrightkey
       · simp only [List.length_append, List.length_singleton]
         omega
       · simp only [List.length_append, List.length_singleton]
         omega)
/-- The matching loop over the whole (singleton-bucket) sales map: the consumed-set
invariants hold at the end, every processed sales entry lands in exactly one
outcome, and the missing-in-sales-register bucket is untouched. -/
theorem c1_fold (t : ℚ) (salesData gstr1Data : List Invoice)
    (H3 : ∀ l ∈ salesData, normKey l ∉ gstr1Data.map normKey →
      ∀ r ∈ gstr1Data, normKey r ∈ salesData.map normKey →
        fuzzyConfidence l r (normKey r) < 7/10) :
    ∀ (sales : List Invoice) (st : RState),
      (∀ i ∈ sales, i ∈ salesData) →
      (sales.map normKey).Nodup →
      st.processedGSTR1.Nodup →
      (∀ k ∈ st.processedGSTR1, k ∈ gstr1Data.map normKey) →
      st.processedGSTR1.length = st.matched.length + st.mismatched.length →
      (∀ k ∈ st.processedGSTR1, k ∉ sales.map normKey) →
      (sales.foldl
        (fun st i => processSales t (singletonMap gstr1Data) st (normKey i, [i]))
        st).processedGSTR1.Nodup ∧
      (∀ k ∈ (sales.foldl
        (fun st i => processSales t (singletonMap gstr1Data) st (normKey i, [i]))
        st).processedGSTR1, k ∈ gstr1Data.map normKey) ∧
      (sales.foldl
        (fun st i => processSales t (singletonMap gstr1Data) st (normKey i, [i]))
        st).processedGSTR1.length =
        (sales.foldl
          (fun st i => processSales t (singletonMap gstr1Data) st (normKey i, [i]))
          st).matched.length +
        (sales.foldl
          (fun st i => processSales t (singletonMap gstr1Data) st (normKey i, [i]))
          st).mismatched.length ∧
      (sales.foldl
        (fun st i => processSales t (singletonMap gstr1Data) st (normKey i, [i]))
        st).matched.length +
        (sales.foldl
          (fun st i => processSales t (singletonMap gstr1Data) st (normKey i, [i]))
          st).mismatched.length +
        (sales.foldl
          (fun st i => processSales t (singletonMap gstr1Data) st (normKey i, [i]))
          st).missingSalesInGSTR1.length =
        st.matched.length + st.mismatched.length + st.missingSalesInGSTR1.length +
          sales.length ∧
      (sales.foldl
        (fun st i => processSales t (singletonMap gstr1Data) st (normKey i, [i]))
        st).missingGSTR1InSales = st.missingGSTR1InSales := by
  intro sales
  induction sales with
  | nil =>
    intro st _ _ hP1 hP2 hP3 _
    exact ⟨hP1, hP2, hP3, by simp, rfl⟩
  | cons a rest ih =>
    intro st hsub hnd hP1 hP2 hP3 hP4
    have hamem : normKey a ∈ (a :: rest).map normKey := by
      simp [List.mem_map]
    have hPk : normKey a ∉ st.processedGSTR1 := fun hk => hP4 (normKey a) hk hamem
    obtain ⟨nP1, nP2, nP3, ncount, nmissR, ndisj⟩ :=
      c1_step t salesData gstr1Data H3 a (hsub a (List.mem_cons_self a rest)) st
        hP1 hP2 hP3 hPk
    simp only [List.map_cons, List.nodup_cons] at hnd
    have hsub' : ∀ i ∈ rest, i ∈ salesData :=
      fun i hi => hsub i (List.mem_cons_of_mem a hi)
    have nP4 : ∀ k ∈ (processSales t (singletonMap gstr1Data) st
        (normKey a, [a])).processedGSTR1, k ∉ rest.map normKey := by
      rcases ndisj with hd | hd | ⟨r, hrmem, hd, hrnot⟩
      · rw [hd]
        intro k hk hkrest
        exact hP4 k hk (List.mem_cons_of_mem _ hkrest)
      · rw [hd]
        intro k hk
        rcases List.mem_append.mp hk with hk | hk
        · exact fun hkrest => hP4 k hk (List.mem_cons_of_mem _ hkrest)
        · rw [List.mem_singleton.mp hk]
          exact hnd.1
      · rw [hd]
        intro k hk
        rcases List.mem_append.mp hk with hk | hk
        · exact fun hkrest => hP4 k hk (List.mem_cons_of_mem _ hkrest)
        · rw [List.mem_singleton.mp hk]
          intro hkrest
          obtain ⟨i, hi, hik⟩ := List.mem_map.mp hkrest
          exact hrnot (hik ▸ List.mem_map_of_mem normKey (hsub' i hi))
    simp only [List.foldl_cons]
    obtain ⟨fP1, fP2, fP3, fcount, fmissR⟩ :=
      ih (processSales t (singletonMap gstr1Data) st (normKey a, [a]))
        hsub' hnd.2 nP1 nP2 nP3 nP4
    refine ⟨fP1, fP2, fP3, ?_, ?_⟩
    · rw [fcount]
      simp only [List.length_cons]
      omega
    · rw [fmissR, nmissR]
/-- C1 (amended): the completeness equation holds provided (i) every invoice on
both sides has a non-empty identifier, (ii) normalized keys are pairwise distinct
within each side, and (iii) no GSTR-1 invoice whose key is also a sales key can be
a fuzzy candidate (score at least 0.7) for a sales invoice that lacks an exact
match.  Duplicated keys collapse to one participant, empty identifiers are dropped
altogether, and a fuzzy-consumed key that is later looked up exactly double-pairs
one right invoice — each of these breaks the equation, hence the provisos. -/
theorem c1_amended (salesData gstr1Data : List Invoice) (t : ℚ)
    (H1a : ∀ i ∈ salesData, i.invoiceNo ≠ "")
    (H1b : ∀ i ∈ gstr1Data, i.invoiceNo ≠ "")
    (H2a : (salesData.map normKey).Nodup)
    (H2b : (gstr1Data.map normKey).Nodup)
    (H3 : ∀ l ∈ salesData, normKey l ∉ gstr1Data.map normKey →
      ∀ r ∈ gstr1Data, normKey r ∈ salesData.map normKey →
        fuzzyConfidence l r (normKey r) < 7/10) :
    salesData.length + gstr1Data.length =
      2 * (reconcileData salesData gstr1Data t).matched.length +
      2 * (reconcileData salesData gstr1Data t).mismatched.length +
      (reconcileData salesData gstr1Data t).missingSalesInGSTR1.length +
      (reconcileData salesData gstr1Data t).missingGSTR1InSales.length := by
  have hmapL := buildInvoiceMap_singleton salesData H1a H2a
  have hmapR := buildInvoiceMap_singleton gstr1Data H1b H2b
  have hfold : (singletonMap salesData).foldl
      (processSales t (singletonMap gstr1Data)) initialRState =
      salesData.foldl
        (fun st i => processSales t (singletonMap gstr1Data) st (normKey i, [i]))
        initialRState := by
    simp only [singletonMap]
    rw [List.foldl_map]
  obtain ⟨fP1, fP2, fP3, fcount, fmissR⟩ :=
    c1_fold t salesData gstr1Data H3 salesData initialRState (fun i hi => hi) H2a
      (by simp [initialRState]) (by simp [initialRState]) (by simp [initialRState])
      (by simp [initialRState])
  rw [show initialRState.matched.length = 0 from rfl,
    show initialRState.mismatched.length = 0 from rfl,
    show initialRState.missingSalesInGSTR1.length = 0 from rfl] at fcount
  obtain ⟨sm, smm, smiss, -, -⟩ := sweepGSTR1_fields
    (salesData.foldl
      (fun st i => processSales t (singletonMap gstr1Data) st (normKey i, [i]))
      initialRState) (singletonMap gstr1Data)
  have hsweep := sweepGSTR1_missing_count gstr1Data
    (salesData.foldl
      (fun st i => processSales t (singletonMap gstr1Data) st (normKey i, [i]))
      initialRState)
  rw [fmissR, show initialRState.missingGSTR1InSales.length = 0 from rfl,
    Nat.zero_add] at hsweep
  obtain ⟨hfilter, hle⟩ := length_filter_not_mem H2b fP1 fP2
  have hlen : (gstr1Data.map normKey).length = gstr1Data.length :=
    List.length_map gstr1Data normKey
  simp only [reconcileData, reconcileCore, hmapL, hmapR, hfold]
  rw [sm, smm, smiss, hsweep, hfilter, hlen]
  omega
/-- C1, witness: one sales invoice and one GSTR-1 invoice with the same key
satisfy all provisos and the completeness equation: `1 + 1 = 2·1 + 0 + 0 + 0`. -/
theorem c1_amended_witness :
    ([⟨"A1", "", "G1", "", 0, 0, 0, 0, 100⟩] : List Invoice).length +
      ([⟨"A1", "", "G1", "", 0, 0, 0, 0, 100⟩] : List Invoice).length =
    2 * (reconcileData [⟨"A1", "", "G1", "", 0, 0, 0, 0, 100⟩]
        [⟨"A1", "", "G1", "", 0, 0, 0, 0, 100⟩] 1).matched.length +
      2 * (reconcileData [⟨"A1", "", "G1", "", 0, 0, 0, 0, 100⟩]
        [⟨"A1", "", "G1", "", 0, 0, 0, 0, 100⟩] 1).mismatched.length +
      (reconcileData [⟨"A1", "", "G1", "", 0, 0, 0, 0, 100⟩]
        [⟨"A1", "", "G1", "", 0, 0, 0, 0, 100⟩] 1).missingSalesInGSTR1.length +
      (reconcileData [⟨"A1", "", "G1", "", 0, 0, 0, 0, 100⟩]
        [⟨"A1", "", "G1", "", 0, 0, 0, 0, 100⟩] 1).missingGSTR1InSales.length :=
  c1_amended [⟨"A1", "", "G1", "", 0, 0, 0, 0, 100⟩]
    [⟨"A1", "", "G1", "", 0, 0, 0, 0, 100⟩] 1
    (by decide) (by decide) (by decide) (by decide) (by decide)

end CA
